import Mathlib

/-!
Verification of the mintlayer-core chain-acceptance engine against its
natural-language specification.  The Rust sources are shallowly embedded:
pure functions become Lean functions, fallible code returns `Except`,
stateful code threads explicit state records, and machine integers are
`Nat` with explicit `% 2 ^ w` where wrap-around matters.  Components of
the repository whose code is not part of the provided sources (helper
crates such as `common::primitives::Amount`, the `utxo` crate internals,
serialization and cryptographic hashing) are modelled from the
specification's description and marked as such in their doc comments.
-/

set_option maxHeartbeats 1000000

/-- Storage-layer error (`chainstate_storage::Error`), kept abstract: the
claims only move such errors around, never inspect them. -/
structure StorageError where
  code : Nat
deriving DecidableEq, Repr

/-- Checked addition of ledger amounts.  Modelled from the spec: `Amount`
is a fixed-point unsigned integer ("atoms", u128 in the source, the type
itself is not under src/); addition is checked and returns `none` on
overflow instead of wrapping. -/
def amountAdd (a b : Nat) : Option Nat :=
  if a + b < 2 ^ 128 then some (a + b) else none

/-- Checked subtraction of ledger amounts.  Modelled from the spec:
subtraction is checked and returns `none` on underflow. -/
def amountSub (a b : Nat) : Option Nat :=
  if b ≤ a then some (a - b) else none

namespace SC

/-! Shallow embedding of `chainstate/src/detail/spend_cache.rs` (the
legacy spend cache working over the linear main-chain transaction
index).  Ids (`Id<Block>`, `Id<Transaction>`, hashes, destinations) are
abstracted to `Nat`. -/

/-- Source id of an outpoint: a transaction id or a block-reward (block) id
(`common::chain::OutPointSourceId`). -/
inductive OutPointSourceId where
  | transaction (txId : Nat)
  | blockReward (blockId : Nat)
deriving DecidableEq, Repr

/-- Reference to a spendable output (`common::chain::OutPoint`): source id
plus output index. -/
structure OutPoint where
  sourceId : OutPointSourceId
  outputIndex : Nat
deriving DecidableEq, Repr

/-- Transaction input as seen by the spend cache; only the outpoint is
consulted (`TxInput::get_outpoint`). -/
structure TxInput where
  outpoint : OutPoint
deriving DecidableEq, Repr

/-- Transaction output of the spend-cache era
(`common/src/chain/transaction/output.rs`): an amount plus a spending
condition; the destination is abstracted to `Nat`. -/
structure TxOutput where
  value : Nat
  destination : Nat
deriving DecidableEq, Repr

/-- Transaction as seen by the spend cache.  `get_id()` is the content
hash of the transaction; it is modelled as an opaque identifier field
(hash collisions are not modelled). -/
structure Transaction where
  txid : Nat
  inputs : List TxInput
  outputs : List TxOutput
deriving DecidableEq, Repr

/-- Who spent an output (`common::chain::Spender`). -/
inductive Spender where
  | transaction (txId : Nat)
  | blockReward (blockId : Nat)
deriving DecidableEq, Repr

/-- Spent-state of a single output inside a `TxMainChainIndex`.
Modelled from the spec: the index keeps "a spent/unspent bitmap over its
outputs". -/
inductive OutputSpentState where
  | unspent
  | spentBy (sp : Spender)
deriving DecidableEq, Repr

/-- Position of a transaction on the main chain (`TxMainChainPosition`),
abstracted to the (block id, tx number) pair that identifies it. -/
structure TxPos where
  blockId : Nat
  txNum : Nat
deriving DecidableEq, Repr

/-- Where the spendable outputs of a source live
(`common::chain::SpendablePosition`). -/
inductive SpendablePosition where
  | transactionPos (pos : TxPos)
  | blockRewardPos (blockId : Nat)
deriving DecidableEq, Repr

/-- Per-source main-chain index record (`common::chain::TxMainChainIndex`):
position plus a spent/unspent state per output.  Modelled from the spec
(the type's own file is not under src/): "per-transaction record ...
giving the transaction's position ... and a spent/unspent bitmap over its
outputs". -/
structure TxMainChainIndex where
  position : SpendablePosition
  spentState : List OutputSpentState
deriving DecidableEq, Repr

/-- Block-index record as consulted by the spend cache: its height and the
header's reward destinations. -/
structure BlockIndexRec where
  height : Nat
  rewardDestinations : Option (List TxOutput)
deriving DecidableEq, Repr

/-- Errors of block processing (`chainstate::detail::BlockError`); the
enum's own file is not under src/, so exactly the constructors used by
the embedded code are modelled, named after the variants appearing in
`spend_cache.rs` and `detail/mod.rs`. -/
inductive BlockError where
  | storageErr (e : StorageError)
  | attemptToPrintMoney (inputsTotal outputsTotal : Nat)
  | inputAdditionError
  | outputAdditionError
  | missingOutputOrSpent
  | previouslyCachedInputNotFound
  | previouslyCachedInputWasErased
  | outputAlreadyPresentInInputsCache
  | txNumWrongInBlock (txNum : Nat) (blockId : Nat)
  | invalidOutputCount
  | invariantErrorTransactionCouldNotBeLoaded
  | invariantBrokenSourceBlockIndexNotFound
  | blockHeightArithmeticError
  | immatureBlockRewardSpend
  | outputIndexOutOfRange (txId : Option Nat) (sourceOutputIndex : Nat)
  | signatureVerificationFailed (txId : Nat)
  | notFound
  | doubleSpendAttempt
  | spendOutOfRange
  | unspendOfNeverSpent
  | unimplementedRewardPosition
  | databaseCommitError (blockId : Nat) (attempts : Nat) (e : StorageError)
  | blockAtHeightNotFound (height : Nat)
  | otherBlockError (code : Nat)
deriving DecidableEq, Repr

/-- Cached per-source operation on the transaction index
(`spend_cache::cached_operation::CachedInputsOperation`): a written
index, a read index, or an erase marker. -/
inductive CachedInputsOperation where
  | write (idx : TxMainChainIndex)
  | read (idx : TxMainChainIndex)
  | erase
deriving DecidableEq, Repr

/-- The in-memory map of the spend cache (`CachedInputs::inputs`,
a `BTreeMap<OutPointSourceId, CachedInputsOperation>`), embedded as an
association list with unique keys. -/
abbrev InputsCache := List (OutPointSourceId × CachedInputsOperation)

/-- Lookup in the cached-inputs map. -/
def cacheLookup (c : InputsCache) (k : OutPointSourceId) : Option CachedInputsOperation :=
  match c with
  | [] => none
  | (k', v) :: rest => if k' = k then some v else cacheLookup rest k

/-- Insertion into a vacant entry of the cached-inputs map. -/
def cacheInsert (c : InputsCache) (k : OutPointSourceId) (v : CachedInputsOperation) :
    InputsCache :=
  (k, v) :: c

/-- Update of the value at an existing key of the cached-inputs map. -/
def cacheUpdate (c : InputsCache) (k : OutPointSourceId) (v : CachedInputsOperation) :
    InputsCache :=
  c.map (fun p => if p.1 = k then (k, v) else p)

/-- Read view of the storage transaction used by the spend cache
(`db_tx: &TxRw`): each getter mirrors one `BlockchainStorageRead` call
and may fail with a storage error or return `none`. -/
structure Store where
  getMainchainTxIndex : OutPointSourceId → Except StorageError (Option TxMainChainIndex)
  getMainchainTxByPosition : TxPos → Except StorageError (Option Transaction)
  getBlockIndex : Nat → Except StorageError (Option BlockIndexRec)

/-- Block as consulted by the spend cache: id, transactions, and the
header's reward destinations / block-production inputs. -/
structure Block where
  blockId : Nat
  txs : List Transaction
  rewardDestinations : Option (List TxOutput)
  productionInputs : Option (List TxInput)
deriving Repr

/-- What is being spent (`spend_cache::SpendKind`). -/
inductive SpendKind where
  | transactionKind (txNum : Nat)
  | blockRewardKind
deriving DecidableEq, Repr

/-- Construction of a fresh `TxMainChainIndex`.  Modelled from the spec
(constructor not under src/): all outputs start unspent; a zero output
count is rejected. -/
def TxMainChainIndex.make (pos : SpendablePosition) (count : Nat) :
    Except BlockError TxMainChainIndex :=
  if count = 0 then .error .invalidOutputCount
  else .ok ⟨pos, List.replicate count .unspent⟩

/-- Marking one output of an index as spent.  Modelled from the spec
(method not under src/): fails if the output index is out of range or the
output is already spent. -/
def TxMainChainIndex.spendOut (idx : TxMainChainIndex) (i : Nat) (sp : Spender) :
    Except BlockError TxMainChainIndex :=
  match idx.spentState.get? i with
  | none => .error .spendOutOfRange
  | some .unspent => .ok ⟨idx.position, idx.spentState.set i (.spentBy sp)⟩
  | some (.spentBy _) => .error .doubleSpendAttempt

/-- Marking one output of an index as unspent again.  Modelled from the
spec (method not under src/). -/
def TxMainChainIndex.unspendOut (idx : TxMainChainIndex) (i : Nat) :
    Except BlockError TxMainChainIndex :=
  match idx.spentState.get? i with
  | none => .error .spendOutOfRange
  | some (.spentBy _) => .ok ⟨idx.position, idx.spentState.set i .unspent⟩
  | some .unspent => .error .unspendOfNeverSpent

/-- Spend through a cached operation
(`CachedInputsOperation::spend`, module not under src/, modelled from
usage): a read or written index is spent and becomes written; an erased
entry cannot be spent. -/
def CachedInputsOperation.spendOp (op : CachedInputsOperation) (i : Nat) (sp : Spender) :
    Except BlockError CachedInputsOperation :=
  match op with
  | .write idx => (idx.spendOut i sp).map .write
  | .read idx => (idx.spendOut i sp).map .write
  | .erase => .error .previouslyCachedInputWasErased

/-- Unspend through a cached operation (`CachedInputsOperation::unspend`,
modelled from usage). -/
def CachedInputsOperation.unspendOp (op : CachedInputsOperation) (i : Nat) :
    Except BlockError CachedInputsOperation :=
  match op with
  | .write idx => (idx.unspendOut i).map .write
  | .read idx => (idx.unspendOut i).map .write
  | .erase => .error .previouslyCachedInputWasErased

/-- Underlying index of a cached operation
(`CachedInputsOperation::get_tx_index`). -/
def CachedInputsOperation.getTxIndex : CachedInputsOperation → Option TxMainChainIndex
  | .write idx => some idx
  | .read idx => some idx
  | .erase => none

/-- Main-chain index for transaction number `txNum` of `block`
(`common::chain::calculate_tx_index_from_block`; function not under
src/, modelled from usage: position points into the block, all outputs
start unspent). -/
def calculate_tx_index_from_block (b : Block) (txNum : Nat) :
    Except BlockError TxMainChainIndex :=
  match b.txs.get? txNum with
  | none => .error (.txNumWrongInBlock txNum b.blockId)
  | some tx => TxMainChainIndex.make (.transactionPos ⟨b.blockId, txNum⟩) tx.outputs.length

/-- Embedding of `CachedInputs::add_outputs`
(`spend_cache.rs` lines 58-87): computes the new index and source id for
the spend kind, then inserts it; an occupied entry is the
`OutputAlreadyPresentInInputsCache` error. -/
def add_outputs (c : InputsCache) (b : Block) (k : SpendKind) :
    Except BlockError InputsCache := do
  let pair : Option (CachedInputsOperation × OutPointSourceId) ←
    match k with
    | .transactionKind txNum => do
        let txIndex ← calculate_tx_index_from_block b txNum
        match b.txs.get? txNum with
        | none => Except.error (.txNumWrongInBlock txNum b.blockId)
        | some tx =>
            pure (some (CachedInputsOperation.write txIndex,
              OutPointSourceId.transaction tx.txid))
    | .blockRewardKind =>
        match b.rewardDestinations with
        | some outs => do
            let txIndex ← TxMainChainIndex.make (.blockRewardPos b.blockId) outs.length
            pure (some (CachedInputsOperation.write txIndex,
              OutPointSourceId.blockReward b.blockId))
        | none => pure none
  match pair with
  | none => pure c
  | some (txIndex, sourceId) =>
      match cacheLookup c sourceId with
      | some _ => Except.error .outputAlreadyPresentInInputsCache
      | none => pure (cacheInsert c sourceId txIndex)

/-- Embedding of `CachedInputs::remove_outputs`: unconditionally records
an erase operation for the transaction's id. -/
def remove_outputs (c : InputsCache) (tx : Transaction) : Except BlockError InputsCache :=
  .ok ((OutPointSourceId.transaction tx.txid, CachedInputsOperation.erase) ::
    c.filter (fun p => p.1 ≠ OutPointSourceId.transaction tx.txid))

/-- Embedding of `CachedInputs::check_blockreward_maturity`. -/
def check_blockreward_maturity (db : Store) (spendingBlockId : Nat) (spendHeight : Nat)
    (maturity : Nat) : Except BlockError Unit := do
  let sourceIndex ← (db.getBlockIndex spendingBlockId).mapError BlockError.storageErr
  match sourceIndex with
  | none => Except.error .invariantBrokenSourceBlockIndexNotFound
  | some bi =>
      if bi.height > spendHeight then Except.error .blockHeightArithmeticError
      else if spendHeight - bi.height < maturity then Except.error .immatureBlockRewardSpend
      else pure ()

/-- Embedding of `CachedInputs::fetch_and_cache`: a vacant entry is filled
from storage as a read operation; a missing index is the
`MissingOutputOrSpent` error. -/
def fetch_and_cache (c : InputsCache) (db : Store) (o : OutPoint) :
    Except BlockError InputsCache :=
  match cacheLookup c o.sourceId with
  | some _ => .ok c
  | none =>
      match db.getMainchainTxIndex o.sourceId with
      | .error e => .error (.storageErr e)
      | .ok none => .error .missingOutputOrSpent
      | .ok (some txIndex) => .ok (cacheInsert c o.sourceId (.read txIndex))

/-- Precaching of every input of a list (the `try_for_each` loops over
`fetch_and_cache` in `spend`/`unspend`). -/
def precache_inputs (c : InputsCache) (db : Store) (inputs : List TxInput) :
    Except BlockError InputsCache :=
  match inputs with
  | [] => .ok c
  | i :: rest => do
      let c' ← fetch_and_cache c db i.outpoint
      precache_inputs c' db rest

/-- Amount of the output referenced by one input, as resolved by
`CachedInputs::calculate_total_inputs` (lines 156-185): cache lookup,
then the source transaction by position, then the output by index.  The
block-reward position arm is `unimplemented!()` in the source and is
modelled as a distinguished error. -/
def input_amount (c : InputsCache) (db : Store) (i : TxInput) : Except BlockError Nat := do
  let txIndex ←
    match cacheLookup c i.outpoint.sourceId with
    | some (.write idx) => pure idx
    | some (.read idx) => pure idx
    | some .erase => Except.error .previouslyCachedInputWasErased
    | none => Except.error .previouslyCachedInputNotFound
  match txIndex.position with
  | .transactionPos txPos =>
      match db.getMainchainTxByPosition txPos with
      | .error e => Except.error (.storageErr e)
      | .ok none => Except.error .invariantErrorTransactionCouldNotBeLoaded
      | .ok (some tx) =>
          match tx.outputs.get? i.outpoint.outputIndex with
          | none => Except.error (.outputIndexOutOfRange (some tx.txid) i.outpoint.outputIndex)
          | some out => pure out.value
  | .blockRewardPos _ => Except.error .unimplementedRewardPosition

/-- Embedding of `CachedInputs::calculate_total_inputs`: sums the
referenced output amounts with checked addition
(`InputAdditionError` on overflow). -/
def sc_calculate_total_inputs (c : InputsCache) (db : Store) (inputs : List TxInput) :
    Except BlockError Nat :=
  go inputs 0
where
  go : List TxInput → Nat → Except BlockError Nat
  | [], total => .ok total
  | i :: rest, total => do
      let a ← input_amount c db i
      match amountAdd total a with
      | none => Except.error .inputAdditionError
      | some total' => go rest total'

/-- Checked sum of a list of output values (the `try_fold` in
`check_inputs_amounts`, `OutputAdditionError` on overflow). -/
def sum_output_values (outputs : List TxOutput) : Option Nat :=
  outputs.foldl (fun acc out => acc.bind (fun a => amountAdd a out.value)) (some 0)

/-- Embedding of `CachedInputs::check_inputs_amounts`
(`spend_cache.rs` lines 191-206): inputs total, outputs total, and the
money-printing comparison. -/
def check_inputs_amounts (c : InputsCache) (db : Store) (inputs : List TxInput)
    (outputs : List TxOutput) : Except BlockError Unit := do
  let inputsTotal ← sc_calculate_total_inputs c db inputs
  let outputsTotal ←
    match sum_output_values outputs with
    | none => Except.error BlockError.outputAdditionError
    | some t => pure t
  if outputsTotal > inputsTotal then
    Except.error (.attemptToPrintMoney inputsTotal outputsTotal)
  else pure ()

/-- External signature verification (`common::chain::signature::
verify_signature`), abstracted to a Boolean oracle over the destination,
the spending transaction and the input index. -/
structure SigEnv where
  verifySig : Nat → Transaction → Nat → Bool

/-- Signature check for one input of a transaction, as performed by
`CachedInputs::verify_signatures` (lines 208-257). -/
def verify_one_signature (c : InputsCache) (db : Store) (env : SigEnv) (tx : Transaction)
    (inputIdx : Nat) (i : TxInput) : Except BlockError Unit := do
  let op ←
    match cacheLookup c i.outpoint.sourceId with
    | some op => pure op
    | none => Except.error BlockError.previouslyCachedInputNotFound
  let txIndex ←
    match op.getTxIndex with
    | some idx => pure idx
    | none => Except.error BlockError.previouslyCachedInputNotFound
  match txIndex.position with
  | .transactionPos txPos =>
      match db.getMainchainTxByPosition txPos with
      | .error e => Except.error (.storageErr e)
      | .ok none => Except.error .invariantErrorTransactionCouldNotBeLoaded
      | .ok (some prevTx) =>
          match prevTx.outputs.get? i.outpoint.outputIndex with
          | none =>
              Except.error (.outputIndexOutOfRange (some tx.txid) i.outpoint.outputIndex)
          | some out =>
              if env.verifySig out.destination tx inputIdx then pure ()
              else Except.error (.signatureVerificationFailed tx.txid)
  | .blockRewardPos blockId =>
      match db.getBlockIndex blockId with
      | .error e => Except.error (.storageErr e)
      | .ok none => Except.error .notFound
      | .ok (some bi) =>
          match bi.rewardDestinations with
          | none => pure ()
          | some outs =>
              if outs.all (fun out => env.verifySig out.destination tx inputIdx) then pure ()
              else Except.error (.signatureVerificationFailed tx.txid)

/-- Embedding of `CachedInputs::verify_signatures`: checks every input in
order. -/
def verify_signatures (c : InputsCache) (db : Store) (env : SigEnv) (tx : Transaction) :
    Except BlockError Unit :=
  go 0 tx.inputs
where
  go : Nat → List TxInput → Except BlockError Unit
  | _, [] => .ok ()
  | n, i :: rest => do
      verify_one_signature c db env tx n i
      go (n + 1) rest

/-- Spending of one input inside `CachedInputs::apply_spend`: the
block-reward maturity check, then the cached-operation spend. -/
def apply_spend_one (c : InputsCache) (db : Store) (i : TxInput) (spendHeight : Nat)
    (maturity : Nat) (sp : Spender) : Except BlockError InputsCache := do
  match i.outpoint.sourceId with
  | .transaction _ => pure ()
  | .blockReward blockId => check_blockreward_maturity db blockId spendHeight maturity
  let op ←
    match cacheLookup c i.outpoint.sourceId with
    | some op => pure op
    | none => Except.error BlockError.previouslyCachedInputNotFound
  let op' ← op.spendOp i.outpoint.outputIndex sp
  pure (cacheUpdate c i.outpoint.sourceId op')

/-- Embedding of `CachedInputs::apply_spend` (lines 259-284). -/
def apply_spend (c : InputsCache) (db : Store) (inputs : List TxInput) (spendHeight : Nat)
    (maturity : Nat) (sp : Spender) : Except BlockError InputsCache :=
  match inputs with
  | [] => .ok c
  | i :: rest => do
      let c' ← apply_spend_one c db i spendHeight maturity sp
      apply_spend c' db rest spendHeight maturity sp

/-- Embedding of `CachedInputs::spend` (lines 286-356): precache, amount
check, signature check, input spending, then `add_outputs`. -/
def spend (c : InputsCache) (db : Store) (env : SigEnv) (b : Block) (k : SpendKind)
    (spendHeight : Nat) (maturity : Nat) : Except BlockError InputsCache := do
  let c' ←
    match k with
    | .transactionKind txNum => do
        let tx ←
          match b.txs.get? txNum with
          | none => Except.error (BlockError.txNumWrongInBlock txNum b.blockId)
          | some tx => pure tx
        let c1 ← precache_inputs c db tx.inputs
        check_inputs_amounts c1 db tx.inputs tx.outputs
        verify_signatures c1 db env tx
        apply_spend c1 db tx.inputs spendHeight maturity (.transaction tx.txid)
    | .blockRewardKind => do
        let c1 ←
          match b.productionInputs with
          | some ins => do
              let c1 ← precache_inputs c db ins
              match b.rewardDestinations with
              | some outs => do
                  check_inputs_amounts c1 db ins outs
                  pure c1
              | none => pure c1
          | none => pure c
        match b.productionInputs with
        | some ins => apply_spend c1 db ins spendHeight maturity (.blockReward b.blockId)
        | none => pure c1
  add_outputs c' b k

end SC

namespace TV

/-! Shallow embedding of `chainstate/tx-verifier/src/transaction_verifier/mod.rs`.
Submodules of the verifier that are not under src/ (`utils.rs`,
`amounts_map.rs`, `input_output_policy.rs`, the `utxo` and
`pos_accounting` crate internals) are modelled from the spec and marked
as such.  Ids and destinations are abstracted to `Nat`. -/

/-- Per-asset key of the amounts maps
(`token_issuance_cache::CoinOrTokenId`). -/
inductive CoinOrTokenId where
  | coin
  | tokenId (t : Nat)
deriving DecidableEq, Repr

/-- Value carried by an output (`common::chain::tokens::OutputValue`).
Modelled from the spec: amounts are kept per asset id (`Coin` or a token
id); the token-data payload is reduced to (token id, amount). -/
inductive OutputValue where
  | coin (amt : Nat)
  | token (tid : Nat) (amt : Nat)
deriving DecidableEq, Repr

/-- Stake-pool declaration data (`common::chain::stakelock::StakePoolData`),
fields abstracted to `Nat`. -/
structure StakePoolData where
  value : Nat
  decommissionKey : Nat
  vrfPublicKey : Nat
  decommissionDestination : Nat
  marginPerThousand : Nat
  costPerEpoch : Nat
deriving DecidableEq, Repr

/-- Transaction output of the verifier era (`common::chain::TxOutput`):
transfer, lock-then-transfer, burn, stake-pool creation, or
produce-block-from-stake. -/
inductive TxOutput where
  | transfer (v : OutputValue) (d : Nat)
  | lockThenTransfer (v : OutputValue) (d : Nat) (lock : Nat)
  | burn (v : OutputValue)
  | stakePool (d : StakePoolData)
  | produceBlockFromStake (amt : Nat) (d : Nat) (poolId : Nat)
deriving DecidableEq, Repr

/-- Value accessor of an output (`TxOutput::value`); a stake pool's value
is the staked coin amount. -/
def TxOutput.value : TxOutput → OutputValue
  | .transfer v _ => v
  | .lockThenTransfer v _ _ => v
  | .burn v => v
  | .stakePool d => .coin d.value
  | .produceBlockFromStake amt _ _ => .coin amt

/-- Destination accessor of an output (`TxOutput::destination`): a burned
output has no destination. -/
def TxOutput.destination : TxOutput → Option Nat
  | .transfer _ d => some d
  | .lockThenTransfer _ d _ => some d
  | .burn _ => none
  | .stakePool d => some d.decommissionKey
  | .produceBlockFromStake _ d _ => some d

/-- Transaction of the verifier era; `txid` models the content hash
`get_id()` as an opaque identifier. -/
structure Transaction where
  txid : Nat
  inputs : List SC.TxInput
  outputs : List TxOutput
deriving DecidableEq, Repr

/-- Signed transaction (`common::chain::signed_transaction::SignedTransaction`):
a transaction plus input witnesses. -/
structure SignedTransaction where
  transaction : Transaction
  witnesses : List Nat
deriving DecidableEq, Repr

/-- Unspent output payload (`utxo::Utxo`): the output plus provenance.
Modelled from the spec: "an unspent output's payload (value,
destination/spending-condition, provenance: height + whether it came
from a block reward)". -/
structure Utxo where
  output : TxOutput
  height : Nat
  fromReward : Bool
deriving DecidableEq, Repr

/-- UTXO set of the verifier's cache, embedded as an association list
from outpoints to unspent outputs. -/
abbrev UtxoMap := List (SC.OutPoint × Utxo)

/-- Lookup in the UTXO map (`UtxosCache::utxo`). -/
def utxoLookup (m : UtxoMap) (o : SC.OutPoint) : Option Utxo :=
  match m with
  | [] => none
  | (k, v) :: rest => if k = o then some v else utxoLookup rest o

/-- Removal from the UTXO map (spending an outpoint). -/
def utxoRemove (m : UtxoMap) (o : SC.OutPoint) : UtxoMap :=
  m.filter (fun p => p.1 ≠ o)

/-- Errors of transaction connection
(`transaction_verifier::error::ConnectTransactionError` plus the nested
error enums); the error module is not under src/, so exactly the
variants used by the embedded code are modelled. -/
inductive ConnectTransactionError where
  | storageErr (e : StorageError)
  | missingOutputOrSpent
  | attemptToPrintMoney (inputsTotal outputsTotal : Nat)
  | coinOrTokenOverflow
  | feeTotalCalculationFailed
  | burnAmountSumError (txId : Nat)
  | insufficientTokenFees (txId : Nat)
  | tokensInBlockReward
  | rewardAdditionError (blockId : Nat)
  | invalidOutputTypeInReward (blockId : Nat)
  | poolDataNotFound (poolId : Nat)
  | noKernel
  | multipleKernels
  | noBlockRewardOutputs
  | multipleBlockRewardOutputs
  | stakePoolDataMismatch
  | ioPolicyViolation
  | timelockViolation
  | signatureVerificationFailed
  | attemptToSpendBurnedAmount
  | tokenRegistrationFailed
  | accountingError (code : Nat)
  | utxoError (code : Nat)
  | blockUndoError (code : Nat)
  | blockIndexCouldNotBeLoaded (blockId : Nat)
  | blockUndoNotFound (blockId : Nat)
  | txNumWrongInBlockOnConnect (txNum : Nat) (blockId : Nat)
deriving DecidableEq, Repr

/-- Per-asset amounts map (`amounts_map::AmountsMap`), embedded as an
association list with unique keys. -/
abbrev AmountMap := List (CoinOrTokenId × Nat)

/-- Lookup in an amounts map. -/
def amountMapLookup (m : AmountMap) (k : CoinOrTokenId) : Option Nat :=
  match m with
  | [] => none
  | (k', v) :: rest => if k' = k then some v else amountMapLookup rest k

/-- Amount for a key, defaulting to zero when absent (the
`.get(..).cloned().unwrap_or(Amount::from_atoms(0))` pattern). -/
def amountMapGetOrZero (m : AmountMap) (k : CoinOrTokenId) : Nat :=
  (amountMapLookup m k).getD 0

/-- Merge of one (asset, amount) pair into an amounts map with checked
addition.  Modelled from the spec: per-asset sums never mix assets and
use checked arithmetic (`amounts_map.rs` is not under src/). -/
def amountMapInsert (m : AmountMap) (k : CoinOrTokenId) (v : Nat) : Option AmountMap :=
  match m with
  | [] => some [(k, v)]
  | (k', v') :: rest =>
      if k' = k then (amountAdd v' v).map (fun s => (k, s) :: rest)
      else (amountMapInsert rest k v).map (fun m' => (k', v') :: m')

/-- Asset id and amount of an input's referenced output
(`utils::get_input_token_id_and_amount` as used by
`amount_from_outpoint`).  Modelled from the spec: a coin value counts
toward `Coin`, a token value toward its token id. -/
def amount_from_value (v : OutputValue) : CoinOrTokenId × Nat :=
  match v with
  | .coin a => (.coin, a)
  | .token t a => (.tokenId t, a)

/-- Embedding of `TransactionVerifier::calculate_total_inputs`
(`mod.rs` lines 305-322): every input's outpoint must resolve in the
UTXO view (`MissingOutputOrSpent` otherwise); the amounts are collected
into a per-asset map. -/
def calculate_total_inputs (utxos : UtxoMap) (inputs : List SC.TxInput) :
    Except ConnectTransactionError AmountMap :=
  go inputs []
where
  go : List SC.TxInput → AmountMap → Except ConnectTransactionError AmountMap
  | [], acc => .ok acc
  | i :: rest, acc =>
      match utxoLookup utxos i.outpoint with
      | none => .error .missingOutputOrSpent
      | some u =>
          let (k, a) := amount_from_value u.output.value
          match amountMapInsert acc k a with
          | none => .error .coinOrTokenOverflow
          | some acc' => go rest acc'

/-- Embedding of `utils::calculate_total_outputs` (not under src/,
modelled from the spec): per-asset sum of the outputs' values. -/
def calculate_total_outputs (outputs : List TxOutput) :
    Except ConnectTransactionError AmountMap :=
  go outputs []
where
  go : List TxOutput → AmountMap → Except ConnectTransactionError AmountMap
  | [], acc => .ok acc
  | o :: rest, acc =>
      let (k, a) := amount_from_value o.value
      match amountMapInsert acc k a with
      | none => .error .coinOrTokenOverflow
      | some acc' => go rest acc'

/-- Embedding of `utils::check_transferred_amount` (not under src/,
modelled from the spec): for every asset id, the outputs total must not
exceed the inputs total, otherwise the `AttemptToPrintMoney` error. -/
def check_transferred_amount (inputsMap outputsMap : AmountMap) :
    Except ConnectTransactionError Unit :=
  go outputsMap
where
  go : AmountMap → Except ConnectTransactionError Unit
  | [] => .ok ()
  | (k, outTotal) :: rest =>
      let inTotal := amountMapGetOrZero inputsMap k
      if outTotal > inTotal then .error (.attemptToPrintMoney inTotal outTotal)
      else go rest

/-- Embedding of `utils::get_total_fee` (not under src/, modelled from
the spec: the fee is inputs minus outputs in coins, with checked
subtraction). -/
def get_total_fee (inputsMap outputsMap : AmountMap) :
    Except ConnectTransactionError Nat :=
  match amountSub (amountMapGetOrZero inputsMap .coin) (amountMapGetOrZero outputsMap .coin) with
  | none => .error .feeTotalCalculationFailed
  | some fee => .ok fee

/-- Embedding of
`TransactionVerifier::check_transferred_amounts_and_get_fee`
(`mod.rs` lines 324-335). -/
def check_transferred_amounts_and_get_fee (utxos : UtxoMap) (tx : Transaction) :
    Except ConnectTransactionError Nat := do
  let inputsTotalMap ← calculate_total_inputs utxos tx.inputs
  let outputsTotalMap ← calculate_total_outputs tx.outputs
  check_transferred_amount inputsTotalMap outputsTotalMap
  get_total_fee inputsTotalMap outputsTotalMap

/-- Proof-of-work consensus data of the verifier era (`PoWData`):
difficulty bits, nonce and the reward outputs. -/
structure PoWData where
  bits : Nat
  nonce : Nat
  rewardOutputs : List TxOutput
deriving DecidableEq, Repr

/-- Proof-of-stake consensus data of the verifier era (`PoSData`):
kernel inputs, reward outputs, VRF data, bits, and the stake pool id
(the latter as used by `connect_block_reward`). -/
structure PoSData where
  kernelInputs : List SC.TxInput
  rewardOutputs : List TxOutput
  vrfData : Nat
  bits : Nat
  stakePoolId : Nat
deriving DecidableEq, Repr

/-- Consensus data of a block (`common::chain::block::ConsensusData`). -/
inductive ConsensusData where
  | noneData
  | pow (d : PoWData)
  | pos (d : PoSData)
deriving DecidableEq, Repr

/-- Reward payout of a block (`BlockRewardTransactable`): optional inputs
and optional outputs. -/
structure BlockRewardTransactable where
  inputs : Option (List SC.TxInput)
  outputs : Option (List TxOutput)
deriving DecidableEq, Repr

/-- Embedding of `ConsensusData::derive_transactable`
(`consensus_data.rs` lines 61-76). -/
def derive_transactable : ConsensusData → BlockRewardTransactable
  | .noneData => ⟨none, none⟩
  | .pow d => ⟨none, some d.rewardOutputs⟩
  | .pos d => ⟨some d.kernelInputs, some d.rewardOutputs⟩

/-- Block of the verifier era: id, consensus data, transactions. -/
structure Block where
  blockId : Nat
  consensusData : ConsensusData
  txs : List SignedTransaction
deriving DecidableEq, Repr

/-- Reward payout of a block (`Block::block_reward_transactable`). -/
def Block.blockRewardTransactable (b : Block) : BlockRewardTransactable :=
  derive_transactable b.consensusData

/-- Pool record of the accounting view (`pos_accounting::PoolData`),
fields abstracted to `Nat`. -/
structure PoolData where
  vrfPublicKey : Nat
  decommissionDestination : Nat
  marginPerThousand : Nat
  costPerEpoch : Nat
deriving DecidableEq, Repr

/-- Accounting view of the verifier: pool data and pool balances, both as
association lists (`PoSAccountingView::get_pool_data` /
`get_pool_balance`). -/
structure AccountingView where
  poolData : List (Nat × PoolData)
  poolBalances : List (Nat × Nat)
deriving DecidableEq, Repr

/-- Lookup of pool data in the accounting view. -/
def getPoolData (v : AccountingView) (poolId : Nat) : Option PoolData :=
  (v.poolData.find? (fun p => p.1 = poolId)).map (·.2)

/-- Embedding of `consensus::pos::kernel::get_kernel_output` (file not
under src/, modelled from the spec: the unique kernel input's referenced
output). -/
def get_kernel_output (utxos : UtxoMap) (inputs : List SC.TxInput) :
    Except ConnectTransactionError TxOutput :=
  match inputs with
  | [] => .error .noKernel
  | [i] =>
      match utxoLookup utxos i.outpoint with
      | none => .error .missingOutputOrSpent
      | some u => .ok u.output
  | _ :: _ :: _ => .error .multipleKernels

/-- Embedding of `TransactionVerifier::get_stake_pool_data_from_output`
(`mod.rs` lines 369-394). -/
def get_stake_pool_data_from_output (acct : AccountingView) (output : TxOutput)
    (blockId : Nat) : Except ConnectTransactionError StakePoolData :=
  match output with
  | .transfer _ _ => .error (.invalidOutputTypeInReward blockId)
  | .lockThenTransfer _ _ _ => .error (.invalidOutputTypeInReward blockId)
  | .burn _ => .error (.invalidOutputTypeInReward blockId)
  | .stakePool d => .ok d
  | .produceBlockFromStake amt d poolId =>
      match getPoolData acct poolId with
      | none => .error (.poolDataNotFound poolId)
      | some pd =>
          .ok ⟨amt, d, pd.vrfPublicKey, pd.decommissionDestination,
            pd.marginPerThousand, pd.costPerEpoch⟩

/-- Embedding of `TransactionVerifier::check_stake_outputs_in_reward`
(`mod.rs` lines 396-434). -/
def check_stake_outputs_in_reward (utxos : UtxoMap) (acct : AccountingView) (b : Block) :
    Except ConnectTransactionError Unit :=
  match b.consensusData with
  | .noneData => .ok ()
  | .pow _ => .ok ()
  | .pos _ => do
      let tr := b.blockRewardTransactable
      let kernelInputs ←
        match tr.inputs with
        | none => Except.error ConnectTransactionError.noKernel
        | some ins => pure ins
      let kernelOutput ← get_kernel_output utxos kernelInputs
      let kernelStakePoolData ← get_stake_pool_data_from_output acct kernelOutput b.blockId
      let rewardOutput ←
        match tr.outputs with
        | none => Except.error ConnectTransactionError.noBlockRewardOutputs
        | some [] => Except.error ConnectTransactionError.noBlockRewardOutputs
        | some [o] => pure o
        | some (_ :: _ :: _) => Except.error ConnectTransactionError.multipleBlockRewardOutputs
      let rewardStakePoolData ← get_stake_pool_data_from_output acct rewardOutput b.blockId
      if kernelStakePoolData = rewardStakePoolData then pure ()
      else Except.error ConnectTransactionError.stakePoolDataMismatch

/-- Coin amount of an output value (`OutputValue::coin_amount`). -/
def OutputValue.coinAmount : OutputValue → Option Nat
  | .coin a => some a
  | .token _ _ => none

/-- Whether any output value is a token (the reward-output token filter in
`check_block_reward`). -/
def outputsContainTokens (outputs : List TxOutput) : Bool :=
  outputs.any (fun o => match o.value with
    | .coin _ => false
    | .token _ _ => true)

/-- Coin total of the reward inputs (`check_block_reward`'s
`inputs.map_or_else(.. 0 .., |ins| calculate_total_inputs ..)` closure):
zero without inputs, otherwise the coin entry of the per-asset inputs
map. -/
def reward_inputs_total (utxos : UtxoMap) (tr : BlockRewardTransactable) :
    Except ConnectTransactionError Nat :=
  match tr.inputs with
  | none => pure 0
  | some ins => do
      let m ← calculate_total_inputs utxos ins
      pure (amountMapGetOrZero m .coin)

/-- Coin total of the reward outputs (`check_block_reward`'s
`outputs.map_or_else` closure): zero without outputs; token outputs in a
reward are the `TokensInBlockReward` error; otherwise the coin entry of
the per-asset outputs map. -/
def reward_outputs_total (tr : BlockRewardTransactable) :
    Except ConnectTransactionError Nat :=
  match tr.outputs with
  | none => pure 0
  | some outs =>
      if outputsContainTokens outs then
        Except.error ConnectTransactionError.tokensInBlockReward
      else do
        let m ← calculate_total_outputs outs
        pure (amountMapGetOrZero m .coin)

/-- Embedding of `TransactionVerifier::check_block_reward`
(`mod.rs` lines 436-488): after the stake-output consistency check, the
reward outputs' coin total must not exceed reward inputs total + block
subsidy + total fees (`amount_sum!` is the checked chained addition);
exceeding the ceiling is the `AttemptToPrintMoney` error. -/
def check_block_reward (utxos : UtxoMap) (acct : AccountingView) (b : Block)
    (totalFees : Nat) (blockSubsidyAtHeight : Nat) :
    Except ConnectTransactionError Unit := do
  check_stake_outputs_in_reward utxos acct b
  let tr := b.blockRewardTransactable
  let inputsTotal ← reward_inputs_total utxos tr
  let outputsTotal ← reward_outputs_total tr
  let maxAllowedOutputsTotal ←
    match (amountAdd inputsTotal blockSubsidyAtHeight).bind
        (fun s => amountAdd s totalFees) with
    | none => Except.error (ConnectTransactionError.rewardAdditionError b.blockId)
    | some s => pure s
  if outputsTotal > maxAllowedOutputsTotal then
    Except.error (.attemptToPrintMoney inputsTotal outputsTotal)
  else pure ()

/-- Undo record for one connected transaction's UTXO effects
(`utxo::TxUndo`, modelled from the spec: "recorded inverse of a state
mutation" — the spent utxos by outpoint). -/
abbrev UtxoTxUndo := List (SC.OutPoint × Utxo)

/-- In-memory state of a `TransactionVerifier` instance
(`mod.rs` lines 175-192), with each cache embedded as an association
list: the UTXO cache, the per-source UTXO undo store, the optional
transaction-index cache, the accumulated accounting delta (pool id →
pledged amount), the accounting undo store, and the token-issuance
cache. -/
structure TxVerState where
  utxoCache : UtxoMap
  utxoBlockUndo : List (Nat × UtxoTxUndo)
  txIndexEnabled : Bool
  txIndexCache : List (SC.OutPointSourceId × SC.CachedInputsOperation)
  accountingPools : List (Nat × Nat)
  accountingUndo : List (Nat × Nat)
  tokenCache : List (Nat × Nat)

/-- Source of a transaction being connected
(`TransactionSourceForConnect`): a chain block (with its new height) or
the mempool (with the current best height). -/
inductive TransactionSourceForConnect where
  | chain (blockId : Nat) (newBlockHeight : Nat)
  | mempool (currentBestHeight : Nat)
deriving DecidableEq, Repr

/-- Embedding of `TransactionSourceForConnect::expected_block_height`. -/
def TransactionSourceForConnect.expectedBlockHeight :
    TransactionSourceForConnect → Nat
  | .chain _ h => h
  | .mempool best => best + 1

/-- Embedding of block id projection via
`TransactionSourceForConnect::chain_block_index` (`tx_source.chain_block_index().map(|c| *c.block_id())`). -/
def TransactionSourceForConnect.chainBlockId :
    TransactionSourceForConnect → Option Nat
  | .chain blockId _ => some blockId
  | .mempool _ => none

/-- External dependencies of `connect_transaction` whose implementations
are not under src/, kept as abstract oracles: the input/output-purpose
compatibility predicate, token precaching/registration, the timelock
check, signature verification, and the pool-id hash. -/
structure ConnectEnv where
  purposesOk : Transaction → List TxOutput → Bool
  precacheTokens : List (Nat × Nat) → Transaction →
    Except ConnectTransactionError (List (Nat × Nat))
  tokenMinIssuanceFee : Nat
  issuanceCount : Transaction → Nat
  registerTokens : List (Nat × Nat) → Option Nat → Transaction →
    Except ConnectTransactionError (List (Nat × Nat))
  timelocksOk : Transaction → Nat → Bool
  verifySig : Nat → SignedTransaction → Nat → Bool
  poolIdFromOutpoint : SC.OutPoint → Nat
  getMainchainTxIndex : SC.OutPointSourceId → Except StorageError (Option SC.TxMainChainIndex)

/-- Referenced output of every input, in order
(`input_output_policy`'s utxo collection; also the `inputs_utxos` vector
of `verify_signatures`): any missing outpoint is the
`MissingOutputOrSpent` error. -/
def collect_inputs_utxos (utxos : UtxoMap) (inputs : List SC.TxInput) :
    Except ConnectTransactionError (List TxOutput) :=
  match inputs with
  | [] => .ok []
  | i :: rest =>
      match utxoLookup utxos i.outpoint with
      | none => .error .missingOutputOrSpent
      | some u => (collect_inputs_utxos utxos rest).map (fun l => u.output :: l)

/-- Embedding of `input_output_policy::check_tx_inputs_outputs_purposes`
(module not under src/).  Modelled from the spec: "validates inputs
exist and are unspent (via UTXO cache), that purposes/output types are
compatible with input spending rules" — the input utxos are collected
(failing with `MissingOutputOrSpent` when absent) and the compatibility
predicate is the abstract oracle. -/
def check_tx_inputs_outputs_purposes (env : ConnectEnv) (tx : Transaction)
    (utxos : UtxoMap) : Except ConnectTransactionError Unit := do
  let inputsUtxos ← collect_inputs_utxos utxos tx.inputs
  if env.purposesOk tx inputsUtxos then pure ()
  else Except.error ConnectTransactionError.ioPolicyViolation

/-- Embedding of `TransactionVerifier::check_issuance_fee_burn`
(`mod.rs` lines 337-367). -/
def check_issuance_fee_burn (env : ConnectEnv) (tx : Transaction) :
    Except ConnectTransactionError Unit := do
  if env.issuanceCount tx = 0 then pure ()
  else do
    let totalBurned ←
      match tx.outputs.foldl
          (fun acc o =>
            match o with
            | .burn v =>
                match v.coinAmount with
                | some a => acc.bind (fun s => amountAdd s a)
                | none => acc
            | _ => acc)
          (some 0) with
      | none => Except.error (ConnectTransactionError.burnAmountSumError tx.txid)
      | some t => pure t
    if totalBurned < env.tokenMinIssuanceFee then
      Except.error (ConnectTransactionError.insufficientTokenFees tx.txid)
    else pure ()

/-- Embedding of `TransactionVerifier::verify_signatures` for a signed
transaction (`mod.rs` lines 490-530): every input's utxo must exist, a
burned output cannot be spent, and each input's signature must verify
against the spent output's destination. -/
def tv_verify_signatures (env : ConnectEnv) (utxos : UtxoMap) (tx : SignedTransaction) :
    Except ConnectTransactionError Unit := do
  let _inputsUtxos ← collect_inputs_utxos utxos tx.transaction.inputs
  go 0 tx.transaction.inputs
where
  go (n : Nat) : List SC.TxInput → Except ConnectTransactionError Unit
  | [] => .ok ()
  | i :: rest =>
      match utxoLookup utxos i.outpoint with
      | none => .error .missingOutputOrSpent
      | some u =>
          match u.output.destination with
          | none => .error .attemptToSpendBurnedAmount
          | some d =>
              if env.verifySig d tx n then go (n + 1) rest
              else .error .signatureVerificationFailed

/-- Embedding of `TransactionVerifier::connect_pos_accounting_outputs`
(`mod.rs` lines 532-590), with `PoSAccountingOperations::create_pool`
modelled from the spec (pool id derived from the first input's outpoint;
creating an existing pool fails): every `StakePool` output creates a
pool in the accounting delta and records one undo entry under the
transaction's id. -/
def connect_pos_accounting_outputs (env : ConnectEnv) (pools : List (Nat × Nat))
    (undo : List (Nat × Nat)) (tx : Transaction) :
    Except ConnectTransactionError (List (Nat × Nat) × List (Nat × Nat)) := do
  let stakePoolDatas := tx.outputs.filterMap (fun o =>
    match o with
    | .stakePool d => some d
    | _ => none)
  let (pools', undoCount) ← goPools pools 0 stakePoolDatas
  if undoCount ≠ 0 then
    match undo.find? (fun p => p.1 = tx.txid) with
    | some _ => Except.error (ConnectTransactionError.blockUndoError 0)
    | none => pure (pools', (tx.txid, undoCount) :: undo)
  else pure (pools', undo)
where
  goPools (pools : List (Nat × Nat)) (n : Nat) :
      List StakePoolData → Except ConnectTransactionError (List (Nat × Nat) × Nat)
  | [] => .ok (pools, n)
  | d :: rest => do
      let input0 ←
        match tx.inputs.get? 0 with
        | none => Except.error ConnectTransactionError.missingOutputOrSpent
        | some i => pure i
      let poolId := env.poolIdFromOutpoint input0.outpoint
      match pools.find? (fun p => p.1 = poolId) with
      | some _ => Except.error (ConnectTransactionError.accountingError 0)
      | none => goPools ((poolId, d.value) :: pools) (n + 1) rest

/-- Spending of all inputs of a transaction in the UTXO cache
(`UtxosCache::connect_transaction`, crate not under src/).  Modelled
from the spec: each input's utxo is removed (recording it in the undo
entry) and each output becomes a new utxo at the outpoint
(transaction id, output index). -/
def utxo_connect_transaction (m : UtxoMap) (tx : Transaction) (height : Nat) :
    Except ConnectTransactionError (UtxoMap × UtxoTxUndo) := do
  let (m', undoRev) ← goSpend m [] tx.inputs
  let withOutputs :=
    ((List.range tx.outputs.length).zip tx.outputs).map
      (fun p => (SC.OutPoint.mk (.transaction tx.txid) p.1,
        Utxo.mk p.2 height false)) ++ m'
  pure (withOutputs, undoRev.reverse)
where
  goSpend (m : UtxoMap) (acc : UtxoTxUndo) :
      List SC.TxInput → Except ConnectTransactionError (UtxoMap × UtxoTxUndo)
  | [] => .ok (m, acc)
  | i :: rest =>
      match utxoLookup m i.outpoint with
      | none => .error .missingOutputOrSpent
      | some u => goSpend (utxoRemove m i.outpoint) ((i.outpoint, u) :: acc) rest

/-- Spending of the transaction-index inputs
(`tx_index_cache.precache_inputs` followed by `spend_tx_index_inputs` in
`connect_transaction`, module not under src/, modelled from usage and
from the `spend_cache` sibling): each input's index is fetched into the
cache if absent and its output marked spent. -/
def tx_index_spend_inputs (env : ConnectEnv) (c : List (SC.OutPointSourceId × SC.CachedInputsOperation))
    (inputs : List SC.TxInput) (sp : SC.Spender) :
    Except ConnectTransactionError (List (SC.OutPointSourceId × SC.CachedInputsOperation)) :=
  match inputs with
  | [] => .ok c
  | i :: rest => do
      let c1 ←
        match SC.cacheLookup c i.outpoint.sourceId with
        | some _ => pure c
        | none =>
            match env.getMainchainTxIndex i.outpoint.sourceId with
            | .error e => Except.error (ConnectTransactionError.storageErr e)
            | .ok none => Except.error ConnectTransactionError.missingOutputOrSpent
            | .ok (some idx) =>
                pure (SC.cacheInsert c i.outpoint.sourceId (.read idx))
      let op ←
        match SC.cacheLookup c1 i.outpoint.sourceId with
        | some op => pure op
        | none => Except.error ConnectTransactionError.missingOutputOrSpent
      let op' ←
        match op.spendOp i.outpoint.outputIndex sp with
        | .error _ => Except.error (ConnectTransactionError.utxoError 1)
        | .ok op' => pure op'
      tx_index_spend_inputs env (SC.cacheUpdate c1 i.outpoint.sourceId op') rest sp

/-- Embedding of `TransactionVerifier::connect_transaction`
(`mod.rs` lines 625-692), threading the verifier state explicitly: the
input/output-purpose check, token precaching, the money-printing check
(which computes the fee), the issuance-fee burn check, token
registration, the timelock check, signature verification, accounting
connection, UTXO spending with undo recording, and the optional
transaction-index update for chain sources.  On error the state reached
so far is returned unchanged alongside the error. -/
def connect_transaction (env : ConnectEnv) (st : TxVerState)
    (txSource : TransactionSourceForConnect) (tx : SignedTransaction)
    (medianTimePast : Nat) :
    TxVerState × Except ConnectTransactionError (Option Nat) :=
  let blockId := txSource.chainBlockId
  match check_tx_inputs_outputs_purposes env tx.transaction st.utxoCache with
  | .error e => (st, .error e)
  | .ok () =>
  match env.precacheTokens st.tokenCache tx.transaction with
  | .error e => (st, .error e)
  | .ok tokenCache1 =>
  let st := { st with tokenCache := tokenCache1 }
  match check_transferred_amounts_and_get_fee st.utxoCache tx.transaction with
  | .error e => (st, .error e)
  | .ok fee =>
  match check_issuance_fee_burn env tx.transaction with
  | .error e => (st, .error e)
  | .ok () =>
  match env.registerTokens st.tokenCache blockId tx.transaction with
  | .error e => (st, .error e)
  | .ok tokenCache2 =>
  let st := { st with tokenCache := tokenCache2 }
  if ¬ env.timelocksOk tx.transaction medianTimePast then
    (st, .error .timelockViolation)
  else
  match tv_verify_signatures env st.utxoCache tx with
  | .error e => (st, .error e)
  | .ok () =>
  match connect_pos_accounting_outputs env st.accountingPools st.accountingUndo
      tx.transaction with
  | .error e => (st, .error e)
  | .ok (pools', acctUndo') =>
  let st := { st with accountingPools := pools', accountingUndo := acctUndo' }
  match utxo_connect_transaction st.utxoCache tx.transaction
      txSource.expectedBlockHeight with
  | .error e => (st, .error e)
  | .ok (utxos', txUndo) =>
  let st := { st with utxoCache := utxos' }
  match st.utxoBlockUndo.find? (fun p => p.1 = tx.transaction.txid) with
  | some _ => (st, .error (.blockUndoError 1))
  | none =>
  let st := { st with utxoBlockUndo := (tx.transaction.txid, txUndo) :: st.utxoBlockUndo }
  match txSource with
  | .mempool _ => (st, .ok (some fee))
  | .chain _ _ =>
      if st.txIndexEnabled then
        match tx_index_spend_inputs env st.txIndexCache tx.transaction.inputs
            (.transaction tx.transaction.txid) with
        | .error e => (st, .error e)
        | .ok txIndex' => ({ st with txIndexCache := txIndex' }, .ok (some fee))
      else (st, .ok (some fee))

end TV

namespace Consensus

/-! Shallow embedding of `consensus/src/pos/mod.rs` (proof-of-stake
validation).  The VRF primitive and the accounting/utxo views are
abstract oracles; 512-bit arithmetic is exact on `Nat` because
`hash_pos < 2^256`, `pool_balance < 2^128` and `target < 2^256`, so the
product `pool_balance * target < 2^384` never wraps in `Uint512`. -/

/-- Pool data as read from a stakeable kernel output purpose
(`StakePoolData`/`PoolData` behind `OutputPurpose`); only the VRF public
key is consulted here. -/
structure KernelPoolData where
  vrfPublicKey : Nat
deriving DecidableEq, Repr

/-- Output purpose of the consensus era (`common::chain::OutputPurpose`
as matched in `check_stake_kernel_hash`): only `StakePool` and
`ProduceBlockFromStake` are stakeable. -/
inductive OutputPurpose where
  | transfer
  | lockThenTransfer
  | burn
  | stakePool (d : KernelPoolData)
  | produceBlockFromStake (d : KernelPoolData)
deriving DecidableEq, Repr

/-- Transaction output as consulted by the PoS checks: only its purpose
matters here. -/
structure TxOutput where
  purpose : OutputPurpose
deriving DecidableEq, Repr

/-- Block header as consulted by the PoS checks: its own id and the
previous block's id. -/
structure BlockHeader where
  blockId : Nat
  prevBlockId : Nat
deriving DecidableEq, Repr

/-- Proof-of-stake consensus data (`PoSData`) as consulted by
`check_stake_kernel_hash`: kernel inputs, compact target bits, VRF data
and the stake pool id. -/
structure PoSData where
  kernelInputs : List SC.TxInput
  bits : Nat
  vrfData : Nat
  stakePoolId : Nat
deriving DecidableEq, Repr

/-- Errors of proof-of-stake validation
(`consensus::pos::error::ConsensusPoSError`); the enum's file is not
under src/, so the variants used by the embedded code are modelled. -/
inductive ConsensusPoSError where
  | bitsToTargetConversionFailed (bits : Nat)
  | invalidOutputPurposeInStakeKernel (blockId : Nat)
  | vrfDataVerificationFailed
  | poolBalanceNotFound (poolId : Nat)
  | stakeKernelHashTooHigh
  | prevBlockIndexNotFound (blockId : Nat)
  | propertyQueryError (code : Nat)
  | noKernel
  | multipleKernels
  | missingKernelUtxo
  | accountingViewError (code : Nat)
deriving DecidableEq, Repr

/-- UTXO view of the PoS checks: outpoint → output. -/
abbrev UtxoView := List (SC.OutPoint × TxOutput)

/-- Lookup in the PoS utxo view. -/
def utxoFind (m : UtxoView) (o : SC.OutPoint) : Option TxOutput :=
  (m.find? (fun p => p.1 = o)).map (·.2)

/-- External oracles of the PoS checks: the compact-bits → 256-bit
target conversion, the VRF verify-and-derive primitive (returning the
derived 256-bit value, `none` when verification fails), the pool-balance
view, the block-index handle and the epoch-data handle. -/
structure PoSEnv where
  compactToTarget : Nat → Option Nat
  verifyVrf : Nat → Nat → Nat → Nat → BlockHeader → Option Nat
  getPoolBalance : Nat → Except Nat (Option Nat)
  getGenBlockIndexHeight : Nat → Except Nat (Option Nat)
  getEpochData : Nat → Except Nat (Option Nat)

/-- Chain parameters consulted by the PoS checks.  Modelled from the
spec: epoch length, sealed-epoch distance from tip and the initial
randomness (`ChainConfig` is not under src/). -/
structure ChainConfig where
  epochLength : Nat
  sealedEpochDistanceFromTip : Nat
  initialRandomness : Nat
deriving DecidableEq, Repr

/-- Epoch index of a height (`ChainConfig::epoch_index_from_height`,
modelled from the spec: heights are partitioned into epochs of
`epoch_length` blocks). -/
def epochIndexFromHeight (cfg : ChainConfig) (h : Nat) : Nat :=
  h / cfg.epochLength

/-- Whether a height is the last block of its epoch
(`ChainConfig::is_last_block_in_epoch`, modelled from the spec). -/
def isLastBlockInEpoch (cfg : ChainConfig) (h : Nat) : Bool :=
  (h + 1) % cfg.epochLength = 0

/-- Embedding of `randomness_of_sealed_epoch`
(`pos/mod.rs` lines 86-117): the sealed epoch's recorded randomness, or
the chain's initial randomness when no epoch is sealed yet. -/
def randomness_of_sealed_epoch (cfg : ChainConfig) (env : PoSEnv) (currentHeight : Nat) :
    Except ConsensusPoSError Nat := do
  let currentEpochIndex := epochIndexFromHeight cfg currentHeight
  let dist := cfg.sealedEpochDistanceFromTip
  let sealedEpochIndex : Option Nat :=
    if isLastBlockInEpoch cfg currentHeight then
      if dist ≤ currentEpochIndex then some (currentEpochIndex - dist) else none
    else
      if dist + 1 ≤ currentEpochIndex then some (currentEpochIndex - (dist + 1)) else none
  match sealedEpochIndex with
  | some idx =>
      match env.getEpochData idx with
      | .error e => Except.error (.propertyQueryError e)
      | .ok (some randomness) => pure randomness
      | .ok none => pure cfg.initialRandomness
  | none => pure cfg.initialRandomness

/-- Embedding of `consensus::pos::kernel::get_kernel_output` (file not
under src/, modelled from the spec: the unique kernel input's referenced
output from the utxo view). -/
def get_kernel_output (utxos : UtxoView) (inputs : List SC.TxInput) :
    Except ConsensusPoSError TxOutput :=
  match inputs with
  | [] => .error .noKernel
  | [i] =>
      match utxoFind utxos i.outpoint with
      | none => .error .missingKernelUtxo
      | some o => .ok o
  | _ :: _ :: _ => .error .multipleKernels

/-- Embedding of `check_stake_kernel_hash` (`pos/mod.rs` lines 35-84):
bits→target conversion, the kernel-output purpose gate, VRF
verification, the pool-balance lookup, and the stake-weighted target
comparison `hash_pos ≤ pool_balance * target`. -/
def check_stake_kernel_hash (env : PoSEnv) (epochIndex : Nat) (randomSeed : Nat)
    (posData : PoSData) (kernelOutput : TxOutput) (header : BlockHeader) :
    Except ConsensusPoSError Unit := do
  let target ←
    match env.compactToTarget posData.bits with
    | none => Except.error (ConsensusPoSError.bitsToTargetConversionFailed posData.bits)
    | some t => pure t
  let poolData ←
    match kernelOutput.purpose with
    | .transfer =>
        Except.error (ConsensusPoSError.invalidOutputPurposeInStakeKernel header.blockId)
    | .lockThenTransfer =>
        Except.error (ConsensusPoSError.invalidOutputPurposeInStakeKernel header.blockId)
    | .burn =>
        Except.error (ConsensusPoSError.invalidOutputPurposeInStakeKernel header.blockId)
    | .stakePool d => pure d
    | .produceBlockFromStake d => pure d
  let hashPos ←
    match env.verifyVrf epochIndex randomSeed posData.vrfData poolData.vrfPublicKey header with
    | none => Except.error ConsensusPoSError.vrfDataVerificationFailed
    | some h => pure h
  let poolBalance ←
    match env.getPoolBalance posData.stakePoolId with
    | .error e => Except.error (ConsensusPoSError.accountingViewError e)
    | .ok none => Except.error (ConsensusPoSError.poolBalanceNotFound posData.stakePoolId)
    | .ok (some b) => pure b
  if hashPos ≤ poolBalance * target then pure ()
  else Except.error ConsensusPoSError.stakeKernelHashTooHigh

/-- Embedding of `check_proof_of_stake` (`pos/mod.rs` lines 119-150):
previous-block lookup, sealed-epoch randomness, kernel-output
resolution, then the stake-kernel hash check. -/
def check_proof_of_stake (cfg : ChainConfig) (env : PoSEnv) (header : BlockHeader)
    (posData : PoSData) (utxos : UtxoView) : Except ConsensusPoSError Unit := do
  let prevHeight ←
    match env.getGenBlockIndexHeight header.prevBlockId with
    | .error e => Except.error (ConsensusPoSError.propertyQueryError e)
    | .ok none => Except.error (ConsensusPoSError.prevBlockIndexNotFound header.blockId)
    | .ok (some h) => pure h
  let currentHeight := prevHeight + 1
  let randomSeed ← randomness_of_sealed_epoch cfg env currentHeight
  let kernelOutput ← get_kernel_output utxos posData.kernelInputs
  let currentEpochIndex := epochIndexFromHeight cfg currentHeight
  check_stake_kernel_hash env currentEpochIndex randomSeed posData kernelOutput header

end Consensus

namespace CS

/-! Shallow embedding of the block-processing pipeline of
`chainstate/src/detail/mod.rs`: the commit-retry loop
(`attempt_to_process_block` / `process_db_commit_error`) and orphan
draining (`process_orphans`).  The body of one attempt (orphan check,
block check, accept, best-chain activation, commit) runs against
storage; its outcome per attempt number is abstracted into an oracle
`Nat → AttemptOutcome`, faithful to the source's control flow: any
pre-commit failure is returned directly, only a commit failure enters
the retry path, and a successful commit proceeds to epoch sealing and
orphan processing. -/

/-- Data of a `BlockIndex` relevant to the pipeline result: block id and
height. -/
structure BlockIndexInfo where
  blockId : Nat
  height : Nat
deriving DecidableEq, Repr

/-- Outcome of the storage-backed part of one processing attempt:
a pre-commit failure (check/accept/activate), a commit failure, or a
successful commit carrying the activation result, the epoch-seal result
and the results of reprocessing each drained orphan in drain order. -/
inductive AttemptOutcome where
  | checkFailed (e : SC.BlockError)
  | commitFailed (e : StorageError)
  | committed (activation : Option BlockIndexInfo)
      (sealResult : Except SC.BlockError Unit)
      (orphanResults : List (Except SC.BlockError (Option BlockIndexInfo)))

/-- Delivery record of orphan-draining errors: those passed to the
custom orphan error hook and those written to the log. -/
structure OrphanErrorsDelivery where
  hookDelivered : List SC.BlockError
  logged : List SC.BlockError
deriving DecidableEq, Repr

/-- Embedding of `itertools::partition_result` over the orphan results:
the `Ok` values and the `Err` values, each in order. -/
def partitionResults (rs : List (Except SC.BlockError (Option BlockIndexInfo))) :
    List (Option BlockIndexInfo) × List SC.BlockError :=
  (rs.filterMap (fun r => match r with | .ok v => some v | .error _ => none),
   rs.filterMap (fun r => match r with | .error e => some e | .ok _ => none))

/-- Embedding of `Chainstate::process_orphans` (`detail/mod.rs` lines
284-298) over the per-orphan processing results: errors go to the custom
hook when configured and to the log otherwise; the returned new tip is
the last `Some` block index of the successful results
(`block_indexes.into_iter().flatten().rev().next()`). -/
def process_orphans (hasHook : Bool)
    (rs : List (Except SC.BlockError (Option BlockIndexInfo))) :
    Option BlockIndexInfo × OrphanErrorsDelivery :=
  let (blockIndexes, blockErrors) := partitionResults rs
  let delivery : OrphanErrorsDelivery :=
    if hasHook then ⟨blockErrors, []⟩ else ⟨[], blockErrors⟩
  ((blockIndexes.filterMap id).getLast?, delivery)

mutual

/-- Embedding of `Chainstate::attempt_to_process_block`
(`detail/mod.rs` lines 370-426): runs the storage-backed attempt; a
commit failure is routed to `process_db_commit_error`; after a
successful commit, the epoch seal runs, orphans are drained, and the
orphan-draining tip (when present) overrides the activation result. -/
def attempt_to_process_block (maxAttempts blockId : Nat) (hasHook : Bool)
    (outcomes : Nat → AttemptOutcome) (attemptNumber : Nat) :
    Except SC.BlockError (Option BlockIndexInfo) :=
  match outcomes attemptNumber with
  | .checkFailed e => .error e
  | .commitFailed e =>
      process_db_commit_error maxAttempts blockId hasHook outcomes e attemptNumber
  | .committed activation sealResult orphanResults =>
      match sealResult with
      | .error e => .error e
      | .ok () =>
          let newBlockIndexAfterOrphans := (process_orphans hasHook orphanResults).1
          let result :=
            match newBlockIndexAfterOrphans with
            | some resultFromOrphan => some resultFromOrphan
            | none => activation
          .ok result
termination_by 2 * (maxAttempts - attemptNumber) + 1
decreasing_by omega

/-- Embedding of `Chainstate::process_db_commit_error`
(`detail/mod.rs` lines 300-317): below the configured
`max_db_commit_attempts` the whole attempt is re-run with an incremented
attempt counter; at the limit the fatal `DatabaseCommitError` carrying
the block id, the attempt limit and the storage error is returned. -/
def process_db_commit_error (maxAttempts blockId : Nat) (hasHook : Bool)
    (outcomes : Nat → AttemptOutcome) (dbError : StorageError) (attemptNumber : Nat) :
    Except SC.BlockError (Option BlockIndexInfo) :=
  if h : attemptNumber ≥ maxAttempts then
    .error (.databaseCommitError blockId maxAttempts dbError)
  else
    attempt_to_process_block maxAttempts blockId hasHook outcomes (attemptNumber + 1)
termination_by 2 * (maxAttempts - attemptNumber)
decreasing_by omega

end

/-- Embedding of `Chainstate::process_block` (`detail/mod.rs` lines
429-435): the first attempt runs with attempt number 0. -/
def process_block (maxAttempts blockId : Nat) (hasHook : Bool)
    (outcomes : Nat → AttemptOutcome) :
    Except SC.BlockError (Option BlockIndexInfo) :=
  attempt_to_process_block maxAttempts blockId hasHook outcomes 0

end CS

namespace CD

/-! Shallow embedding of `TransactionVerifier::can_disconnect_transaction`
(`transaction_verifier/mod.rs` lines 795-832), together with a
spec-side chain model used to compare the function's verdict with the
specification's "no later, still-connected block depends on the
transaction's outputs" property. -/

/-- Source of a connected transaction (`TransactionSource`): a chain
block or the mempool. -/
inductive TransactionSource where
  | chain (blockId : Nat)
  | mempool
deriving DecidableEq, Repr

/-- Transaction of the chain model: id and inputs. -/
structure ChainTx where
  txid : Nat
  inputs : List SC.TxInput
deriving DecidableEq, Repr

/-- A still-connected block of the chain model: id, height and its
transactions. -/
structure ChainBlock where
  blockId : Nat
  height : Nat
  txs : List ChainTx
deriving DecidableEq, Repr

/-- The still-connected chain: the list of connected blocks. -/
abbrev Chain := List ChainBlock

/-- Specification-side predicate, written from the claim's words: some
transaction in a later (strictly higher), still-connected block spends
one of the given transaction's outputs. -/
def spentByLaterConnectedBlock (chain : Chain) (blockId txId : Nat) : Bool :=
  match chain.find? (fun b => b.blockId = blockId) with
  | none => false
  | some b =>
      chain.any (fun b' =>
        decide (b.height < b'.height) &&
        b'.txs.any (fun t =>
          t.inputs.any (fun i => i.outpoint.sourceId = .transaction txId)))

/-- Per-block undo record as consulted by `has_children_of`
(`utxo::BlockUndo`, crate not under src/).  Modelled from the spec: the
undo data of a block records, per transaction of the block, the spent
outpoints; a transaction has "children" when some transaction recorded
in the same undo entry spent one of its outputs. -/
structure BlockUndoRec where
  txUndos : List (Nat × List SC.OutPoint)
deriving DecidableEq, Repr

/-- Embedding of `BlockUndo::has_children_of` (modelled from the spec). -/
def BlockUndoRec.hasChildrenOf (u : BlockUndoRec) (txId : Nat) : Bool :=
  u.txUndos.any (fun p => p.2.any (fun o => o.sourceId = .transaction txId))

/-- Storage and undo-cache reads of `can_disconnect_transaction`: the
gen-block-index height lookup and the block-undo read
(`utxo_block_undo.read_block_undo` with the storage fetcher). -/
structure DisconnectEnv where
  getGenBlockIndexHeight : Nat → Except StorageError (Option Nat)
  readBlockUndo : TransactionSource → Except TV.ConnectTransactionError BlockUndoRec

/-- Embedding of `TransactionVerifier::can_disconnect_transaction`
(`mod.rs` lines 795-832): for a chain source, a block strictly below the
best block's height cannot be disconnected; at the best height the
block's undo data must record no child transaction; a mempool source
only consults the undo data. -/
def can_disconnect_transaction (env : DisconnectEnv) (bestBlock : Nat)
    (txSource : TransactionSource) (txId : Nat) :
    Except TV.ConnectTransactionError Bool :=
  match txSource with
  | .chain blockId => do
      let currentBlockHeight ←
        match env.getGenBlockIndexHeight blockId with
        | .error e => Except.error (TV.ConnectTransactionError.storageErr e)
        | .ok none =>
            Except.error (TV.ConnectTransactionError.blockIndexCouldNotBeLoaded blockId)
        | .ok (some h) => pure h
      let bestBlockHeight ←
        match env.getGenBlockIndexHeight bestBlock with
        | .error e => Except.error (TV.ConnectTransactionError.storageErr e)
        | .ok none =>
            Except.error (TV.ConnectTransactionError.blockIndexCouldNotBeLoaded bestBlock)
        | .ok (some h) => pure h
      if currentBlockHeight < bestBlockHeight then pure false
      else do
        let u ← env.readBlockUndo (.chain blockId)
        pure (! u.hasChildrenOf txId)
  | .mempool => do
      let u ← env.readBlockUndo .mempool
      pure (! u.hasChildrenOf txId)

/-- Projection of the chain model onto the environment the verifier
sees: heights come from the connected blocks, and a block's undo data
records the outpoints spent by its transactions. -/
def envOfChain (chain : Chain) : DisconnectEnv where
  getGenBlockIndexHeight id :=
    .ok ((chain.find? (fun b => b.blockId = id)).map (·.height))
  readBlockUndo src :=
    match src with
    | .chain id =>
        match chain.find? (fun b => b.blockId = id) with
        | none => .error (TV.ConnectTransactionError.blockUndoNotFound id)
        | some b => .ok ⟨b.txs.map (fun t => (t.txid, t.inputs.map (·.outpoint)))⟩
    | .mempool => .ok ⟨[]⟩

end CD

namespace TxV1

/-! Shallow embedding of
`common/src/chain/transaction/transaction_v1.rs`.  The SCALE encoding
and the blake2b hash stream (`id::hash_encoded_to`,
`DefaultHashAlgoStream`) live in crates not under src/; `get_id` is
therefore embedded as the exact preimage stream fed to the hasher, one
chunk per `hash_encoded_to` call, so that two transactions with equal
streams have equal hashes. -/

/-- Transaction input of v1 transactions: an outpoint plus witness data
(`TxInput` with its witness bytes). -/
structure TxInput where
  outpoint : SC.OutPoint
  witness : List Nat
deriving DecidableEq, Repr

/-- Embedding of `TxInput::get_outpoint`. -/
def TxInput.get_outpoint (i : TxInput) : SC.OutPoint :=
  i.outpoint

/-- Version-1 transaction (`TransactionV1`): flags, inputs, outputs,
lock time. -/
structure TransactionV1 where
  flags : Nat
  inputs : List TxInput
  outputs : List SC.TxOutput
  lockTime : Nat
deriving DecidableEq, Repr

/-- The fixed version byte hashed first (`TransactionV1::VERSION_BYTE`). -/
def VERSION_BYTE : Nat := 1

/-- One `hash_encoded_to` call's contribution to the id-hash preimage. -/
inductive HashChunk where
  | versionByte (v : Nat)
  | flagsChunk (f : Nat)
  | inputsChunk (outpoints : List SC.OutPoint)
  | outputsChunk (outs : List SC.TxOutput)
  | lockTimeChunk (l : Nat)
deriving DecidableEq, Repr

/-- Embedding of `Idable<TransactionV1>::get_id`
(`transaction_v1.rs` lines 62-78) as the hash preimage stream: the
version byte, the flags, the inputs' outpoints (witnesses excluded), the
outputs, and the lock time, in this order. -/
def get_id (tx : TransactionV1) : List HashChunk :=
  [HashChunk.versionByte VERSION_BYTE,
   HashChunk.flagsChunk tx.flags,
   HashChunk.inputsChunk (tx.inputs.map TxInput.get_outpoint),
   HashChunk.outputsChunk tx.outputs,
   HashChunk.lockTimeChunk tx.lockTime]

end TxV1

namespace Pow

/-! Shallow embedding of `PoWData::get_block_proof`
(`common/src/chain/block/consensus_data.rs` lines 159-168).  `Uint256`
is 256-bit unsigned arithmetic: `!target` is `2^256 - 1 - target`,
`increment` adds one wrapping to zero at the maximum, and `/` is
truncating division. -/

/-- The modulus of `Uint256` arithmetic. -/
def uint256Mod : Nat := 2 ^ 256

/-- Embedding of the bits→target conversion (`Uint256::try_from(Compact)`,
code not under src/).  Modelled from the spec: bitcoin-style compact
difficulty encoding — exponent in the top byte, 23-bit mantissa, sign
bit `0x00800000`; a negative or overflowing encoding fails. -/
def compactToTarget (c : Nat) : Option Nat :=
  let size := c / 2 ^ 24
  let mantissa := c % 2 ^ 23
  let negative := (c / 2 ^ 23) % 2 = 1 ∧ mantissa ≠ 0
  let overflow := mantissa ≠ 0 ∧
    (34 < size ∨ (0xff < mantissa ∧ 33 < size) ∨ (0xffff < mantissa ∧ 32 < size))
  if negative ∨ overflow then none
  else if size ≤ 3 then some (mantissa / 2 ^ (8 * (3 - size)))
  else some (mantissa * 2 ^ (8 * (size - 3)))

/-- Embedding of the `Uint256` computation of `PoWData::get_block_proof`
after the bits→target conversion succeeded:
`ret = !target; ret1 = target; ret1.increment(); ret = ret / ret1;
ret.increment()`, all in 256-bit arithmetic (the increments wrap).  (In
the source, `target = Uint256::MAX` would divide by zero; that value is
unreachable from any compact encoding, and the Lean convention `x / 0 =
0` is used there.) -/
def get_block_proof_value (target : Nat) : Nat :=
  let ret := 2 ^ 256 - 1 - target
  let ret1 := (target + 1) % uint256Mod
  let ret2 := ret / ret1
  (ret2 + 1) % uint256Mod

/-- Embedding of `PoWData::get_block_proof`: `None` when the bits do not
convert to a target. -/
def get_block_proof (d : TV.PoWData) : Option Nat :=
  (compactToTarget d.bits).map get_block_proof_value

end Pow

/-! Theorems.  Each claim of the specification audit is settled by one
named theorem (with a witness when the theorem carries hypotheses, and a
counterexample plus an amended theorem where the claim fails on the
code). -/

/-- C9: the identity of a `TransactionV1` ignores input witnesses — for
any two v1 transactions with equal flags, equal input outpoints, equal
outputs and equal lock time, `get_id` feeds the same preimage stream to
the hasher (version byte, flags, outpoints, outputs, lock time only), so
the transaction ids coincide even when the witnesses differ. -/
theorem C9_txid_ignores_witnesses (tx1 tx2 : TxV1.TransactionV1)
    (hflags : tx1.flags = tx2.flags)
    (houtpoints : tx1.inputs.map TxV1.TxInput.get_outpoint =
      tx2.inputs.map TxV1.TxInput.get_outpoint)
    (houtputs : tx1.outputs = tx2.outputs)
    (hlock : tx1.lockTime = tx2.lockTime) :
    TxV1.get_id tx1 = TxV1.get_id tx2 := by
  simp [TxV1.get_id, hflags, houtpoints, houtputs, hlock]

/-- C9 witness: two concrete transactions differing only in their input
witness data receive the same id. -/
theorem C9_txid_ignores_witnesses_witness :
    (⟨0, [⟨⟨.transaction 5, 0⟩, [1, 2, 3]⟩], [⟨17, 4⟩], 9⟩ : TxV1.TransactionV1) ≠
      (⟨0, [⟨⟨.transaction 5, 0⟩, [7]⟩], [⟨17, 4⟩], 9⟩ : TxV1.TransactionV1) ∧
    TxV1.get_id ⟨0, [⟨⟨.transaction 5, 0⟩, [1, 2, 3]⟩], [⟨17, 4⟩], 9⟩ =
      TxV1.get_id ⟨0, [⟨⟨.transaction 5, 0⟩, [7]⟩], [⟨17, 4⟩], 9⟩ :=
  ⟨by decide,
   C9_txid_ignores_witnesses _ _ rfl rfl rfl rfl⟩

/-- Any target in the image of the compact conversion stays at most
`2^256 - 2`; in particular the wrapping increment and the division of
`get_block_proof` cannot overflow for such targets (other than at target
zero). -/
theorem compactToTarget_le (c t : Nat) (h : Pow.compactToTarget c = some t) :
    t ≤ 2 ^ 256 - 2 := by
  simp only [Pow.compactToTarget] at h
  split at h
  · exact absurd h (by simp)
  · rename_i hno
    push_neg at hno
    obtain ⟨hneg, hover⟩ := hno
    have hmlt : c % 2 ^ 23 < 2 ^ 23 := Nat.mod_lt _ (by norm_num)
    split at h
    · have ht : t ≤ c % 2 ^ 23 := by
        rw [← Option.some_inj.mp h]
        exact Nat.div_le_self _ _
      omega
    · rename_i hs3
      push_neg at hs3
      have ht : t = c % 2 ^ 23 * 2 ^ (8 * (c / 2 ^ 24 - 3)) := (Option.some_inj.mp h).symm
      by_cases hm0 : c % 2 ^ 23 = 0
      · rw [ht, hm0]; simp
      · have hover2 := hover hm0
        push_neg at hover2
        obtain ⟨h34, h33, h32⟩ := hover2
        by_cases h32' : c / 2 ^ 24 ≤ 32
        · have hexp : 8 * (c / 2 ^ 24 - 3) ≤ 232 := by omega
          have hle : t ≤ (2 ^ 23 - 1) * 2 ^ 232 := by
            rw [ht]
            exact Nat.mul_le_mul (by omega) (Nat.pow_le_pow_right (by norm_num) hexp)
          have hbound : (2 ^ 23 - 1) * 2 ^ 232 ≤ 2 ^ 256 - 2 := by norm_num
          omega
        · by_cases h33' : c / 2 ^ 24 ≤ 33
          · have hm : c % 2 ^ 23 ≤ 0xffff := by
              by_contra hcon
              push_neg at hcon
              have := h32 hcon
              omega
            have hexp : 8 * (c / 2 ^ 24 - 3) ≤ 240 := by omega
            have hle : t ≤ 0xffff * 2 ^ 240 := by
              rw [ht]
              exact Nat.mul_le_mul hm (Nat.pow_le_pow_right (by norm_num) hexp)
            have hbound : (0xffff : Nat) * 2 ^ 240 ≤ 2 ^ 256 - 2 := by norm_num
            omega
          · have hm : c % 2 ^ 23 ≤ 0xff := by
              by_contra hcon
              push_neg at hcon
              have := h33 hcon
              omega
            have hexp : 8 * (c / 2 ^ 24 - 3) ≤ 248 := by omega
            have hle : t ≤ 0xff * 2 ^ 248 := by
              rw [ht]
              exact Nat.mul_le_mul hm (Nat.pow_le_pow_right (by norm_num) hexp)
            have hbound : (0xff : Nat) * 2 ^ 248 ≤ 2 ^ 256 - 2 := by norm_num
            omega

/-- The 256-bit computation `(!target / (target + 1)) + 1` equals
`floor(2^256 / (target + 1))` for every target between 1 and
`2^256 - 2`. -/
theorem get_block_proof_value_eq (t : Nat) (h1 : 1 ≤ t) (h2 : t ≤ 2 ^ 256 - 2) :
    Pow.get_block_proof_value t = 2 ^ 256 / (t + 1) := by
  simp only [Pow.get_block_proof_value, Pow.uint256Mod]
  have hlt : t + 1 < 2 ^ 256 := by
    have hh : (2 : Nat) ≤ 2 ^ 256 := by norm_num
    omega
  have hmod : (t + 1) % 2 ^ 256 = t + 1 := Nat.mod_eq_of_lt hlt
  have hq1 : 1 ≤ 2 ^ 256 / (t + 1) := by
    rw [Nat.one_le_div_iff (by omega)]
    omega
  obtain ⟨qq, hqq⟩ : ∃ qq, 2 ^ 256 / (t + 1) = qq + 1 :=
    ⟨2 ^ 256 / (t + 1) - 1, by omega⟩
  have hdiv := Nat.div_add_mod (2 ^ 256) (t + 1)
  have hr : 2 ^ 256 % (t + 1) < t + 1 := Nat.mod_lt _ (by omega)
  rw [hqq] at hdiv
  have hmul : (t + 1) * (qq + 1) = (t + 1) * qq + (t + 1) := by ring
  rw [hmul] at hdiv
  have hsub : 2 ^ 256 - 1 - t = (t + 1) * qq + 2 ^ 256 % (t + 1) := by omega
  have hdiv2 : ((t + 1) * qq + 2 ^ 256 % (t + 1)) / (t + 1) = qq := by
    rw [Nat.mul_add_div (by omega)]
    simp [Nat.div_eq_of_lt hr]
  have hqlt : qq + 1 < 2 ^ 256 := by
    have h2le : (2 : Nat) ≤ t + 1 := by omega
    have hmono : 2 ^ 256 / (t + 1) ≤ 2 ^ 256 / 2 :=
      Nat.div_le_div_left (a := 2 ^ 256) h2le (by norm_num)
    have hhalf : (2 : Nat) ^ 256 / 2 = 2 ^ 255 := by norm_num
    have hfin : (2 : Nat) ^ 255 < 2 ^ 256 := by norm_num
    omega
  rw [hmod, hsub, hdiv2, Nat.mod_eq_of_lt hqlt, hqq]

/-- C8 counterexample: the compact bits value 0 converts to the 256-bit
target 0, and there `get_block_proof` returns 0 (the 256-bit computation
`(!0 / 1) + 1` wraps to zero), while the claimed value
`floor(2^256 / (0 + 1)) = 2^256` differs (it is not even representable
in 256 bits), so the claim fails at target zero. -/
theorem C8_block_proof_counterexample :
    Pow.compactToTarget 0 = some 0 ∧
    Pow.get_block_proof ⟨0, 0, []⟩ = some (Pow.get_block_proof_value 0) ∧
    Pow.get_block_proof_value 0 = 0 ∧
    Pow.get_block_proof_value 0 ≠ 2 ^ 256 / (0 + 1) := by
  refine ⟨by rfl, by rfl, by rfl, ?_⟩
  have h : Pow.get_block_proof_value 0 = 0 := by rfl
  rw [h, Nat.zero_add, Nat.div_one]
  positivity

/-- C8 amended: for every proof-of-work block whose bits field converts
to a nonzero 256-bit target, the block proof returned by
`PoWData::get_block_proof` equals `floor(2^256 / (target + 1))`,
computed in 256-bit unsigned arithmetic as `(!target / (target+1)) + 1`;
at target zero the wrapping computation yields 0 instead of the
unrepresentable `2^256`. -/
theorem C8_block_proof_amended (d : TV.PoWData) (t : Nat)
    (hconv : Pow.compactToTarget d.bits = some t) (h1 : 1 ≤ t) :
    Pow.get_block_proof d = some (2 ^ 256 / (t + 1)) := by
  have hb := compactToTarget_le d.bits t hconv
  simp [Pow.get_block_proof, hconv, get_block_proof_value_eq t h1 hb]

/-- C8 witness: the compact encoding `0x03000001` converts to target 1
and the block proof there is `floor(2^256 / 2)`. -/
theorem C8_block_proof_amended_witness :
    Pow.compactToTarget 50331649 = some 1 ∧
    Pow.get_block_proof ⟨50331649, 0, []⟩ = some (2 ^ 256 / (1 + 1)) :=
  ⟨by rfl, C8_block_proof_amended ⟨50331649, 0, []⟩ 1 (by rfl) (by decide)⟩

/-- Unfolding equation of the embedded `attempt_to_process_block`. -/
theorem attempt_to_process_block_unfold (maxAttempts blockId : Nat) (hasHook : Bool)
    (outcomes : Nat → CS.AttemptOutcome) (n : Nat) :
    CS.attempt_to_process_block maxAttempts blockId hasHook outcomes n =
      match outcomes n with
      | .checkFailed e => .error e
      | .commitFailed e =>
          CS.process_db_commit_error maxAttempts blockId hasHook outcomes e n
      | .committed activation sealResult orphanResults =>
          match sealResult with
          | .error e => .error e
          | .ok () =>
              let newBlockIndexAfterOrphans := (CS.process_orphans hasHook orphanResults).1
              let result :=
                match newBlockIndexAfterOrphans with
                | some resultFromOrphan => some resultFromOrphan
                | none => activation
              .ok result := by
  rw [CS.attempt_to_process_block]

/-- Unfolding equation of the embedded `process_db_commit_error`. -/
theorem process_db_commit_error_unfold (maxAttempts blockId : Nat) (hasHook : Bool)
    (outcomes : Nat → CS.AttemptOutcome) (dbError : StorageError) (n : Nat) :
    CS.process_db_commit_error maxAttempts blockId hasHook outcomes dbError n =
      if n ≥ maxAttempts then
        .error (.databaseCommitError blockId maxAttempts dbError)
      else
        CS.attempt_to_process_block maxAttempts blockId hasHook outcomes (n + 1) := by
  rw [CS.process_db_commit_error]
  split <;> rfl

/-- The successful block indexes of the partitioned orphan results,
flattened, are exactly the `Ok (Some _)` results in order. -/
theorem partition_flatten_eq
    (rs : List (Except SC.BlockError (Option CS.BlockIndexInfo))) :
    (CS.partitionResults rs).1.filterMap id =
      rs.filterMap (fun r => match r with | .ok (some b) => some b | _ => none) := by
  induction rs with
  | nil => rfl
  | cons r rest ih =>
      cases r with
      | ok v =>
          cases v with
          | some b =>
              simp only [CS.partitionResults, List.filterMap_cons] at ih ⊢
              simpa using ih
          | none =>
              simp only [CS.partitionResults, List.filterMap_cons] at ih ⊢
              simpa using ih
      | error e =>
          simp only [CS.partitionResults, List.filterMap_cons] at ih ⊢
          simpa using ih

/-- C6: when the storage-backed attempt commits successfully (and the
epoch seal succeeds), the orphan drain returns the block index of the
last drained orphan that was successfully processed to a new tip, and
`process_block`'s result is that index when one exists and the original
block's best-chain activation result otherwise. -/
theorem C6_orphan_result_override (maxAttempts blockId : Nat) (hasHook : Bool)
    (outcomes : Nat → CS.AttemptOutcome) (n : Nat)
    (activation : Option CS.BlockIndexInfo)
    (rs : List (Except SC.BlockError (Option CS.BlockIndexInfo)))
    (h : outcomes n = .committed activation (.ok ()) rs) :
    (CS.process_orphans hasHook rs).1 =
      (rs.filterMap (fun r =>
        match r with | .ok (some b) => some b | _ => none)).getLast? ∧
    CS.attempt_to_process_block maxAttempts blockId hasHook outcomes n =
      .ok ((rs.filterMap (fun r =>
        match r with | .ok (some b) => some b | _ => none)).getLast?.elim activation some) := by
  have hp : (CS.process_orphans hasHook rs).1 =
      (rs.filterMap (fun r =>
        match r with | .ok (some b) => some b | _ => none)).getLast? := by
    simp only [CS.process_orphans]
    rw [← partition_flatten_eq]
  refine ⟨hp, ?_⟩
  rw [attempt_to_process_block_unfold, h]
  simp only [hp]
  cases hl : (rs.filterMap (fun r =>
      match r with | .ok (some b) => some b | _ => none)).getLast? with
  | none => rfl
  | some b => rfl

/-- C6 witness: with one drained orphan that connects to a new tip, the
result of `process_block` is that orphan's block index, overriding the
original activation result. -/
theorem C6_orphan_result_override_witness :
    (fun _ => CS.AttemptOutcome.committed (some ⟨1, 1⟩) (.ok ())
        [.ok (some ⟨2, 2⟩), .ok none] : Nat → CS.AttemptOutcome) 0 =
      .committed (some ⟨1, 1⟩) (.ok ()) [.ok (some ⟨2, 2⟩), .ok none] ∧
    CS.attempt_to_process_block 3 7 false
      (fun _ => CS.AttemptOutcome.committed (some ⟨1, 1⟩) (.ok ())
        [.ok (some ⟨2, 2⟩), .ok none]) 0 = .ok (some ⟨2, 2⟩) :=
  ⟨rfl,
   (C6_orphan_result_override 3 7 false _ 0 (some ⟨1, 1⟩)
      [.ok (some ⟨2, 2⟩), .ok none] rfl).2⟩

/-- Dropping the failed orphan results does not change the `Ok (Some _)`
projection used for the drained-orphans tip. -/
theorem filterMap_ok_filter
    (rs : List (Except SC.BlockError (Option CS.BlockIndexInfo))) :
    rs.filterMap (fun r => match r with | .ok (some b) => some b | _ => none) =
      (rs.filter (fun r => match r with | .ok _ => true | .error _ => false)).filterMap
        (fun r => match r with | .ok (some b) => some b | _ => none) := by
  induction rs with
  | nil => rfl
  | cons r rest ih =>
      cases r with
      | ok v => cases v <;> simp [List.filterMap_cons, List.filter_cons, ih]
      | error e => simp [List.filterMap_cons, List.filter_cons, ih]

/-- C7: every error produced while reprocessing drained orphans is
delivered to the custom orphan error hook when one is configured and to
the log otherwise; the drained-orphans tip (and hence `process_block`'s
result) is unaffected by the failed orphan results, and a committed
attempt always returns `Ok` to the original caller regardless of
orphan-draining failures. -/
theorem C7_orphan_errors_not_propagated (maxAttempts blockId : Nat) (hasHook : Bool)
    (outcomes : Nat → CS.AttemptOutcome) (n : Nat)
    (activation : Option CS.BlockIndexInfo)
    (rs : List (Except SC.BlockError (Option CS.BlockIndexInfo))) :
    (CS.process_orphans true rs).2 =
      ⟨rs.filterMap (fun r => match r with | .error e => some e | .ok _ => none), []⟩ ∧
    (CS.process_orphans false rs).2 =
      ⟨[], rs.filterMap (fun r => match r with | .error e => some e | .ok _ => none)⟩ ∧
    (CS.process_orphans hasHook rs).1 =
      (CS.process_orphans hasHook
        (rs.filter (fun r => match r with | .ok _ => true | .error _ => false))).1 ∧
    (outcomes n = .committed activation (.ok ()) rs →
      ∃ v, CS.attempt_to_process_block maxAttempts blockId hasHook outcomes n = .ok v) := by
  refine ⟨by simp [CS.process_orphans, CS.partitionResults], by
    simp [CS.process_orphans, CS.partitionResults], ?_, ?_⟩
  · simp only [CS.process_orphans]
    rw [partition_flatten_eq, partition_flatten_eq, filterMap_ok_filter]
  · intro h
    rw [attempt_to_process_block_unfold, h]
    exact ⟨_, rfl⟩

/-- C7 witness: with one failing and one succeeding drained orphan, the
error is delivered to the hook (and to the log when no hook exists), and
the caller still receives `Ok`. -/
theorem C7_orphan_errors_not_propagated_witness :
    (CS.process_orphans true
      [.error .missingOutputOrSpent, .ok (some ⟨2, 2⟩)]).2 =
      ⟨[.missingOutputOrSpent], []⟩ ∧
    (CS.process_orphans false
      [.error .missingOutputOrSpent, .ok (some ⟨2, 2⟩)]).2 =
      ⟨[], [.missingOutputOrSpent]⟩ ∧
    (∃ v, CS.attempt_to_process_block 3 7 true
      (fun _ => CS.AttemptOutcome.committed none (.ok ())
        [.error .missingOutputOrSpent, .ok (some ⟨2, 2⟩)]) 0 = .ok v) := by
  refine ⟨?_, ?_, ?_⟩
  · exact (C7_orphan_errors_not_propagated 3 7 true
      (fun _ => CS.AttemptOutcome.committed none (.ok ())
        [.error .missingOutputOrSpent, .ok (some ⟨2, 2⟩)]) 0 none
      [.error .missingOutputOrSpent, .ok (some ⟨2, 2⟩)]).1
  · exact (C7_orphan_errors_not_propagated 3 7 true
      (fun _ => CS.AttemptOutcome.committed none (.ok ())
        [.error .missingOutputOrSpent, .ok (some ⟨2, 2⟩)]) 0 none
      [.error .missingOutputOrSpent, .ok (some ⟨2, 2⟩)]).2.1
  · exact (C7_orphan_errors_not_propagated 3 7 true
      (fun _ => CS.AttemptOutcome.committed none (.ok ())
        [.error .missingOutputOrSpent, .ok (some ⟨2, 2⟩)]) 0 none
      [.error .missingOutputOrSpent, .ok (some ⟨2, 2⟩)]).2.2.2 rfl

/-- When the commit fails at every attempt, block processing ends in the
fatal `DatabaseCommitError` carrying the storage error of the final
attempt (attempt number `maxAttempts`). -/
theorem commit_always_fails (maxAttempts blockId : Nat) (hasHook : Bool)
    (outcomes : Nat → CS.AttemptOutcome) (errOf : Nat → StorageError)
    (hall : ∀ k, outcomes k = .commitFailed (errOf k)) :
    ∀ n, n ≤ maxAttempts →
      CS.attempt_to_process_block maxAttempts blockId hasHook outcomes n =
        .error (.databaseCommitError blockId maxAttempts (errOf maxAttempts)) := by
  have key : ∀ d n, n ≤ maxAttempts → maxAttempts - n = d →
      CS.attempt_to_process_block maxAttempts blockId hasHook outcomes n =
        .error (.databaseCommitError blockId maxAttempts (errOf maxAttempts)) := by
    intro d
    induction d with
    | zero =>
        intro n hn hd
        have hmax : n = maxAttempts := by omega
        subst hmax
        rw [attempt_to_process_block_unfold, hall n]
        simp only [process_db_commit_error_unfold]
        rw [if_pos (le_refl n)]
    | succ d ih =>
        intro n hn hd
        rw [attempt_to_process_block_unfold, hall n]
        simp only [process_db_commit_error_unfold]
        rw [if_neg (by omega)]
        exact ih (n + 1) (by omega) (by omega)
  exact fun n hn => key (maxAttempts - n) n hn rfl

/-- C3: a failed storage commit re-runs the entire block-processing
attempt (validation, accept, activation and a fresh commit) with an
incremented attempt counter while the attempt number is below the
configured `max_db_commit_attempts`; once the attempt number reaches
that maximum, the fatal `DatabaseCommitError` carrying the block id, the
attempt limit and the storage error is returned; `process_block` starts
at attempt 0, and the commit is never retried in isolation — the retry
is exactly the full attempt at the next counter. -/
theorem C3_commit_retry_bounded (maxAttempts blockId : Nat) (hasHook : Bool)
    (outcomes : Nat → CS.AttemptOutcome) (errOf : Nat → StorageError)
    (e : StorageError) (n : Nat) (h : outcomes n = .commitFailed e) :
    (n < maxAttempts →
      CS.attempt_to_process_block maxAttempts blockId hasHook outcomes n =
        CS.attempt_to_process_block maxAttempts blockId hasHook outcomes (n + 1)) ∧
    (maxAttempts ≤ n →
      CS.attempt_to_process_block maxAttempts blockId hasHook outcomes n =
        .error (.databaseCommitError blockId maxAttempts e)) ∧
    (CS.process_block maxAttempts blockId hasHook outcomes =
      CS.attempt_to_process_block maxAttempts blockId hasHook outcomes 0) ∧
    ((∀ k, outcomes k = .commitFailed (errOf k)) →
      CS.process_block maxAttempts blockId hasHook outcomes =
        .error (.databaseCommitError blockId maxAttempts (errOf maxAttempts))) := by
  refine ⟨?_, ?_, rfl, ?_⟩
  · intro hlt
    rw [attempt_to_process_block_unfold, h]
    simp only [process_db_commit_error_unfold]
    rw [if_neg (by omega)]
  · intro hge
    rw [attempt_to_process_block_unfold, h]
    simp only [process_db_commit_error_unfold]
    rw [if_pos hge]
  · intro hall
    exact commit_always_fails maxAttempts blockId hasHook outcomes errOf hall 0
      (Nat.zero_le _)

/-- C3 witness: with `max_db_commit_attempts = 2` and a commit that
always fails with storage error 5, the first attempt re-runs as attempt
1, attempt 2 is fatal, and `process_block` returns the
`DatabaseCommitError` with the block id, the limit 2 and error 5. -/
theorem C3_commit_retry_bounded_witness :
    (0 < 2 →
      CS.attempt_to_process_block 2 7 false
        (fun _ => CS.AttemptOutcome.commitFailed ⟨5⟩) 0 =
      CS.attempt_to_process_block 2 7 false
        (fun _ => CS.AttemptOutcome.commitFailed ⟨5⟩) 1) ∧
    CS.process_block 2 7 false (fun _ => CS.AttemptOutcome.commitFailed ⟨5⟩) =
      .error (.databaseCommitError 7 2 ⟨5⟩) :=
  ⟨(C3_commit_retry_bounded 2 7 false (fun _ => CS.AttemptOutcome.commitFailed ⟨5⟩)
      (fun _ => ⟨5⟩) ⟨5⟩ 0 rfl).1,
   (C3_commit_retry_bounded 2 7 false (fun _ => CS.AttemptOutcome.commitFailed ⟨5⟩)
      (fun _ => ⟨5⟩) ⟨5⟩ 0 rfl).2.2.2 (fun _ => rfl)⟩

/-- C5: `check_proof_of_stake` accepts a proof-of-stake block only
through `check_stake_kernel_hash`, which rejects a kernel output whose
purpose is `Transfer`, `LockThenTransfer` or `Burn` with
`InvalidOutputPurposeInStakeKernel`, requires the staking pool's balance
to be present in the accounting view, and requires the VRF-derived value
to satisfy `hash_pos ≤ pool_balance * target` (exact on `Nat`, as the
512-bit product cannot wrap); a hash exceeding that product fails with
`StakeKernelHashTooHigh`. -/
theorem C5_pos_stake_checks (env : Consensus.PoSEnv) (epochIndex randomSeed : Nat)
    (posData : Consensus.PoSData) (kernelOutput : Consensus.TxOutput)
    (header : Consensus.BlockHeader) :
    (∀ t, env.compactToTarget posData.bits = some t →
      (kernelOutput.purpose = .transfer ∨ kernelOutput.purpose = .lockThenTransfer ∨
        kernelOutput.purpose = .burn) →
      Consensus.check_stake_kernel_hash env epochIndex randomSeed posData kernelOutput
        header = .error (.invalidOutputPurposeInStakeKernel header.blockId)) ∧
    (Consensus.check_stake_kernel_hash env epochIndex randomSeed posData kernelOutput
        header = .ok () →
      ∃ t d hashPos b, env.compactToTarget posData.bits = some t ∧
        (kernelOutput.purpose = .stakePool d ∨
          kernelOutput.purpose = .produceBlockFromStake d) ∧
        env.verifyVrf epochIndex randomSeed posData.vrfData d.vrfPublicKey header =
          some hashPos ∧
        env.getPoolBalance posData.stakePoolId = .ok (some b) ∧
        hashPos ≤ b * t) ∧
    (∀ t d hashPos b, env.compactToTarget posData.bits = some t →
      (kernelOutput.purpose = .stakePool d ∨
        kernelOutput.purpose = .produceBlockFromStake d) →
      env.verifyVrf epochIndex randomSeed posData.vrfData d.vrfPublicKey header =
        some hashPos →
      env.getPoolBalance posData.stakePoolId = .ok (some b) →
      b * t < hashPos →
      Consensus.check_stake_kernel_hash env epochIndex randomSeed posData kernelOutput
        header = .error .stakeKernelHashTooHigh) ∧
    (∀ cfg utxos,
      Consensus.check_proof_of_stake cfg env header posData utxos = .ok () →
      ∃ prevHeight seed ko,
        env.getGenBlockIndexHeight header.prevBlockId = .ok (some prevHeight) ∧
        Consensus.randomness_of_sealed_epoch cfg env (prevHeight + 1) = .ok seed ∧
        Consensus.get_kernel_output utxos posData.kernelInputs = .ok ko ∧
        Consensus.check_stake_kernel_hash env
          (Consensus.epochIndexFromHeight cfg (prevHeight + 1)) seed posData ko
          header = .ok ()) := by
  refine ⟨?_, ?_, ?_, ?_⟩
  · intro t hconv hpurpose
    simp only [Consensus.check_stake_kernel_hash, bind, Except.bind, pure, Except.pure,
      hconv]
    rcases hpurpose with h | h | h <;> simp only [h]
  · intro h
    simp only [Consensus.check_stake_kernel_hash, bind, Except.bind, pure,
      Except.pure] at h
    cases hconv : env.compactToTarget posData.bits with
    | none => simp only [hconv] at h; exact Except.noConfusion h
    | some t =>
        simp only [hconv] at h
        cases hp : kernelOutput.purpose with
        | transfer => simp only [hp] at h; exact Except.noConfusion h
        | lockThenTransfer => simp only [hp] at h; exact Except.noConfusion h
        | burn => simp only [hp] at h; exact Except.noConfusion h
        | stakePool d =>
            simp only [hp] at h
            cases hvrf : env.verifyVrf epochIndex randomSeed posData.vrfData
                d.vrfPublicKey header with
            | none => simp only [hvrf] at h; exact Except.noConfusion h
            | some hashPos =>
                simp only [hvrf] at h
                cases hbal : env.getPoolBalance posData.stakePoolId with
                | error e => simp only [hbal] at h; exact Except.noConfusion h
                | ok ob =>
                    cases ob with
                    | none => simp only [hbal] at h; exact Except.noConfusion h
                    | some b =>
                        simp only [hbal] at h
                        by_cases hle : hashPos ≤ b * t
                        · exact ⟨t, d, hashPos, b, by simp [hconv], Or.inl (by simp [hp]),
                            by simp [hvrf], by simp [hbal], hle⟩
                        · rw [if_neg hle] at h; exact absurd h (by simp)
        | produceBlockFromStake d =>
            simp only [hp] at h
            cases hvrf : env.verifyVrf epochIndex randomSeed posData.vrfData
                d.vrfPublicKey header with
            | none => simp only [hvrf] at h; exact Except.noConfusion h
            | some hashPos =>
                simp only [hvrf] at h
                cases hbal : env.getPoolBalance posData.stakePoolId with
                | error e => simp only [hbal] at h; exact Except.noConfusion h
                | ok ob =>
                    cases ob with
                    | none => simp only [hbal] at h; exact Except.noConfusion h
                    | some b =>
                        simp only [hbal] at h
                        by_cases hle : hashPos ≤ b * t
                        · exact ⟨t, d, hashPos, b, by simp [hconv], Or.inr (by simp [hp]),
                            by simp [hvrf], by simp [hbal], hle⟩
                        · rw [if_neg hle] at h; exact absurd h (by simp)
  · intro t d hashPos b hconv hpurpose hvrf hbal hgt
    simp only [Consensus.check_stake_kernel_hash, bind, Except.bind, pure, Except.pure,
      hconv]
    rcases hpurpose with h | h <;> simp only [h, hvrf, hbal] <;>
      rw [if_neg (by omega)]
  · intro cfg utxos h
    simp only [Consensus.check_proof_of_stake, bind, Except.bind, pure,
      Except.pure] at h
    cases hprev : env.getGenBlockIndexHeight header.prevBlockId with
    | error e => simp only [hprev] at h; exact Except.noConfusion h
    | ok ov =>
        cases ov with
        | none => simp only [hprev] at h; exact Except.noConfusion h
        | some prevHeight =>
            simp only [hprev] at h
            cases hrand : Consensus.randomness_of_sealed_epoch cfg env (prevHeight + 1) with
            | error e => simp only [hrand] at h; exact Except.noConfusion h
            | ok seed =>
                simp only [hrand] at h
                cases hko : Consensus.get_kernel_output utxos posData.kernelInputs with
                | error e => simp only [hko] at h; exact Except.noConfusion h
                | ok ko =>
                    simp only [hko] at h
                    exact ⟨prevHeight, seed, ko, by simp [hprev], by simp [hrand],
                      by simp [hko], by simpa using h⟩

/-- C5 witness: with a concrete environment (target 4, VRF value 8, pool
balance 2), a burn kernel output is rejected as an invalid stake-kernel
purpose, a stake-pool kernel with `8 ≤ 2 * 4` passes the kernel-hash
check, and raising the VRF value to 9 fails with
`StakeKernelHashTooHigh`. -/
theorem C5_pos_stake_checks_witness :
    Consensus.check_stake_kernel_hash
      ⟨fun _ => some 4, fun _ _ _ _ _ => some 8, fun _ => .ok (some 2),
        fun _ => .ok (some 0), fun _ => .ok none⟩ 0 0 ⟨[], 0, 0, 1⟩ ⟨.burn⟩ ⟨1, 0⟩ =
      .error (.invalidOutputPurposeInStakeKernel 1) ∧
    (∃ t d hashPos b,
      (⟨fun _ => some 4, fun _ _ _ _ _ => some 8, fun _ => .ok (some 2),
        fun _ => .ok (some 0), fun _ => .ok none⟩ : Consensus.PoSEnv).compactToTarget 0 =
          some t ∧
      ((⟨.stakePool ⟨3⟩⟩ : Consensus.TxOutput).purpose = .stakePool d ∨
        (⟨.stakePool ⟨3⟩⟩ : Consensus.TxOutput).purpose = .produceBlockFromStake d) ∧
      (⟨fun _ => some 4, fun _ _ _ _ _ => some 8, fun _ => .ok (some 2),
        fun _ => .ok (some 0), fun _ => .ok none⟩ : Consensus.PoSEnv).verifyVrf 0 0 0
          d.vrfPublicKey ⟨1, 0⟩ = some hashPos ∧
      (⟨fun _ => some 4, fun _ _ _ _ _ => some 8, fun _ => .ok (some 2),
        fun _ => .ok (some 0), fun _ => .ok none⟩ : Consensus.PoSEnv).getPoolBalance 1 =
          .ok (some b) ∧
      hashPos ≤ b * t) ∧
    Consensus.check_stake_kernel_hash
      ⟨fun _ => some 4, fun _ _ _ _ _ => some 9, fun _ => .ok (some 2),
        fun _ => .ok (some 0), fun _ => .ok none⟩ 0 0 ⟨[], 0, 0, 1⟩
      ⟨.stakePool ⟨3⟩⟩ ⟨1, 0⟩ = .error .stakeKernelHashTooHigh :=
  ⟨(C5_pos_stake_checks
      ⟨fun _ => some 4, fun _ _ _ _ _ => some 8, fun _ => .ok (some 2),
        fun _ => .ok (some 0), fun _ => .ok none⟩ 0 0 ⟨[], 0, 0, 1⟩ ⟨.burn⟩ ⟨1, 0⟩).1
      4 rfl (Or.inr (Or.inr rfl)),
   (C5_pos_stake_checks
      ⟨fun _ => some 4, fun _ _ _ _ _ => some 8, fun _ => .ok (some 2),
        fun _ => .ok (some 0), fun _ => .ok none⟩ 0 0 ⟨[], 0, 0, 1⟩
      ⟨.stakePool ⟨3⟩⟩ ⟨1, 0⟩).2.1 rfl,
   (C5_pos_stake_checks
      ⟨fun _ => some 4, fun _ _ _ _ _ => some 9, fun _ => .ok (some 2),
        fun _ => .ok (some 0), fun _ => .ok none⟩ 0 0 ⟨[], 0, 0, 1⟩
      ⟨.stakePool ⟨3⟩⟩ ⟨1, 0⟩).2.2.1 4 ⟨3⟩ 9 2 rfl (Or.inl rfl) rfl rfl
      (by norm_num)⟩

/-- C4 counterexample: in a two-block chain where block 1 (height 1)
holds transaction 10 whose outputs nobody spends and block 2 (height 2)
is the best block, no transaction of a later still-connected block
depends on transaction 10, yet `can_disconnect_transaction` returns
`Ok(false)` (because the block is below the best height), so the claim's
"returns true otherwise" direction fails on this input. -/
theorem C4_can_disconnect_counterexample :
    CD.spentByLaterConnectedBlock
      [⟨1, 1, [⟨10, []⟩]⟩, ⟨2, 2, [⟨20, []⟩]⟩] 1 10 = false ∧
    CD.can_disconnect_transaction
      (CD.envOfChain [⟨1, 1, [⟨10, []⟩]⟩, ⟨2, 2, [⟨20, []⟩]⟩]) 2 (.chain 1) 10 =
      .ok false :=
  ⟨by rfl, by rfl⟩

/-- C4 amended: `can_disconnect_transaction` returns false whenever some
transaction in a later, still-connected block spends one of the
transaction's outputs, and more generally whenever the transaction's
block is strictly below the best-block height (even if nothing spends
its outputs); only for a block at the best height does it return true
exactly when the block's own undo data records no in-block dependent
transaction. -/
theorem C4_can_disconnect_amended (chain : CD.Chain) (best blockId txId : Nat)
    (bBest bCur : CD.ChainBlock)
    (hbest : chain.find? (fun b => b.blockId = best) = some bBest)
    (hmax : ∀ b ∈ chain, b.height ≤ bBest.height)
    (hblk : chain.find? (fun b => b.blockId = blockId) = some bCur) :
    (CD.spentByLaterConnectedBlock chain blockId txId = true →
      CD.can_disconnect_transaction (CD.envOfChain chain) best (.chain blockId) txId =
        .ok false) ∧
    (bCur.height < bBest.height →
      CD.can_disconnect_transaction (CD.envOfChain chain) best (.chain blockId) txId =
        .ok false) ∧
    (¬ bCur.height < bBest.height →
      CD.can_disconnect_transaction (CD.envOfChain chain) best (.chain blockId) txId =
        .ok (! (CD.BlockUndoRec.hasChildrenOf
          ⟨bCur.txs.map (fun t => (t.txid, t.inputs.map (·.outpoint)))⟩ txId))) := by
  have hreduce :
      CD.can_disconnect_transaction (CD.envOfChain chain) best (.chain blockId) txId =
        if bCur.height < bBest.height then .ok false
        else .ok (! (CD.BlockUndoRec.hasChildrenOf
          ⟨bCur.txs.map (fun t => (t.txid, t.inputs.map (·.outpoint)))⟩ txId)) := by
    simp only [CD.can_disconnect_transaction, CD.envOfChain, bind, Except.bind, pure,
      Except.pure, hblk, hbest, Option.map_some']
  have hlow : bCur.height < bBest.height →
      CD.can_disconnect_transaction (CD.envOfChain chain) best (.chain blockId) txId =
        .ok false := by
    intro hlt
    rw [hreduce, if_pos hlt]
  refine ⟨?_, hlow, ?_⟩
  · intro hspent
    have hlt : bCur.height < bBest.height := by
      unfold CD.spentByLaterConnectedBlock at hspent
      rw [hblk, List.any_eq_true] at hspent
      obtain ⟨b', hmem, hcond⟩ := hspent
      rw [Bool.and_eq_true, decide_eq_true_eq] at hcond
      have := hmax b' hmem
      omega
    exact hlow hlt
  · intro hge
    rw [hreduce, if_neg hge]

/-- C4 amended witness: in the concrete two-block chain, transaction 10
of height-1 block 1 cannot be disconnected (false below the best
height), while transaction 20 of the best block 2 can (no in-block
children). -/
theorem C4_can_disconnect_amended_witness :
    CD.can_disconnect_transaction
      (CD.envOfChain [⟨1, 1, [⟨10, []⟩]⟩, ⟨2, 2, [⟨20, []⟩]⟩]) 2 (.chain 1) 10 =
      .ok false ∧
    CD.can_disconnect_transaction
      (CD.envOfChain [⟨1, 1, [⟨10, []⟩]⟩, ⟨2, 2, [⟨20, []⟩]⟩]) 2 (.chain 2) 20 =
      .ok true :=
  ⟨(C4_can_disconnect_amended [⟨1, 1, [⟨10, []⟩]⟩, ⟨2, 2, [⟨20, []⟩]⟩] 2 1 10
      ⟨2, 2, [⟨20, []⟩]⟩ ⟨1, 1, [⟨10, []⟩]⟩ rfl (by decide) rfl).2.1 (by decide),
   by
    have h := (C4_can_disconnect_amended [⟨1, 1, [⟨10, []⟩]⟩, ⟨2, 2, [⟨20, []⟩]⟩] 2 2 20
      ⟨2, 2, [⟨20, []⟩]⟩ ⟨2, 2, [⟨20, []⟩]⟩ rfl (by decide) rfl).2.2 (by decide)
    simpa using h⟩

/-- The spend cache's amount check succeeds exactly on computed totals
with outputs not exceeding inputs. -/
theorem check_inputs_amounts_ok (c : SC.InputsCache) (db : SC.Store)
    (inputs : List SC.TxInput) (outputs : List SC.TxOutput)
    (h : SC.check_inputs_amounts c db inputs outputs = .ok ()) :
    ∃ it ot, SC.sc_calculate_total_inputs c db inputs = .ok it ∧
      SC.sum_output_values outputs = some ot ∧ ot ≤ it := by
  simp only [SC.check_inputs_amounts, bind, Except.bind, pure, Except.pure] at h
  cases hin : SC.sc_calculate_total_inputs c db inputs with
  | error e => simp only [hin] at h; exact Except.noConfusion h
  | ok it =>
      simp only [hin] at h
      cases hout : SC.sum_output_values outputs with
      | none => simp only [hout] at h; exact Except.noConfusion h
      | some ot =>
          simp only [hout] at h
          by_cases hgt : ot > it
          · rw [if_pos hgt] at h; exact Except.noConfusion h
          · exact ⟨it, ot, rfl, rfl, by omega⟩

/-- The spend cache's amount check fails with `AttemptToPrintMoney` when
the outputs total exceeds the inputs total. -/
theorem check_inputs_amounts_print_money (c : SC.InputsCache) (db : SC.Store)
    (inputs : List SC.TxInput) (outputs : List SC.TxOutput) (it ot : Nat)
    (hin : SC.sc_calculate_total_inputs c db inputs = .ok it)
    (hout : SC.sum_output_values outputs = some ot) (hgt : it < ot) :
    SC.check_inputs_amounts c db inputs outputs =
      .error (.attemptToPrintMoney it ot) := by
  simp only [SC.check_inputs_amounts, bind, Except.bind, pure, Except.pure, hin, hout]
  rw [if_pos (by omega)]

/-- A successful per-asset transfer check bounds every asset's outputs
total by its inputs total. -/
theorem check_transferred_amount_ok (im om : TV.AmountMap)
    (h : TV.check_transferred_amount im om = .ok ()) :
    ∀ k, TV.amountMapGetOrZero om k ≤ TV.amountMapGetOrZero im k := by
  intro k
  induction om with
  | nil => simp [TV.amountMapGetOrZero, TV.amountMapLookup]
  | cons p rest ih =>
      obtain ⟨k0, v0⟩ := p
      simp only [TV.check_transferred_amount] at h ih
      rw [TV.check_transferred_amount.go] at h
      by_cases hgt : v0 > TV.amountMapGetOrZero im k0
      · rw [if_pos hgt] at h; exact Except.noConfusion h
      · rw [if_neg hgt] at h
        by_cases hk : k0 = k
        · subst hk
          have hv : TV.amountMapGetOrZero ((k0, v0) :: rest) k0 = v0 := by
            simp [TV.amountMapGetOrZero, TV.amountMapLookup]
          rw [hv]
          omega
        · have := ih h
          simpa [TV.amountMapGetOrZero, TV.amountMapLookup, hk] using this

/-- Every error of the per-asset transfer check is an
`AttemptToPrintMoney` with outputs exceeding inputs. -/
theorem check_transferred_amount_error_shape (im om : TV.AmountMap) (e : TV.ConnectTransactionError)
    (h : TV.check_transferred_amount im om = .error e) :
    ∃ i o, e = .attemptToPrintMoney i o ∧ i < o := by
  induction om with
  | nil =>
      simp only [TV.check_transferred_amount, TV.check_transferred_amount.go] at h
      exact Except.noConfusion h
  | cons p rest ih =>
      obtain ⟨k0, v0⟩ := p
      simp only [TV.check_transferred_amount] at h ih
      rw [TV.check_transferred_amount.go] at h
      by_cases hgt : v0 > TV.amountMapGetOrZero im k0
      · rw [if_pos hgt] at h
        exact ⟨_, _, (Except.error.injEq _ _).mp h |>.symm, by omega⟩
      · rw [if_neg hgt] at h
        exact ih h

/-- A violated per-asset bound makes the transfer check fail with an
`AttemptToPrintMoney` error. -/
theorem check_transferred_amount_violation (im om : TV.AmountMap)
    (h : ∃ k, TV.amountMapGetOrZero im k < TV.amountMapGetOrZero om k) :
    ∃ i o, TV.check_transferred_amount im om = .error (.attemptToPrintMoney i o) ∧
      i < o := by
  cases hc : TV.check_transferred_amount im om with
  | ok u =>
      obtain ⟨k, hk⟩ := h
      cases u
      have := check_transferred_amount_ok im om hc k
      omega
  | error e =>
      obtain ⟨i, o, he, hio⟩ := check_transferred_amount_error_shape im om e hc
      refine ⟨i, o, ?_, hio⟩
      rw [he]

/-- A successful block-reward check yields computed totals with the
outputs total within the ceiling inputs + subsidy + fees. -/
theorem check_block_reward_ok (utxos : TV.UtxoMap) (acct : TV.AccountingView)
    (b : TV.Block) (fees subsidy : Nat)
    (h : TV.check_block_reward utxos acct b fees subsidy = .ok ()) :
    ∃ iT oT mx, TV.reward_inputs_total utxos b.blockRewardTransactable = .ok iT ∧
      TV.reward_outputs_total b.blockRewardTransactable = .ok oT ∧
      (amountAdd iT subsidy).bind (fun s => amountAdd s fees) = some mx ∧
      oT ≤ mx := by
  simp only [TV.check_block_reward, bind, Except.bind, pure, Except.pure] at h
  cases hs : TV.check_stake_outputs_in_reward utxos acct b with
  | error e => simp only [hs] at h; exact Except.noConfusion h
  | ok u =>
      cases u
      simp only [hs] at h
      cases hin : TV.reward_inputs_total utxos b.blockRewardTransactable with
      | error e => simp only [hin] at h; exact Except.noConfusion h
      | ok iT =>
          simp only [hin] at h
          cases hout : TV.reward_outputs_total b.blockRewardTransactable with
          | error e => simp only [hout] at h; exact Except.noConfusion h
          | ok oT =>
              simp only [hout] at h
              cases hmx : (amountAdd iT subsidy).bind (fun s => amountAdd s fees) with
              | none => simp only [hmx] at h; exact Except.noConfusion h
              | some mx =>
                  simp only [hmx] at h
                  by_cases hgt : oT > mx
                  · rw [if_pos hgt] at h; exact Except.noConfusion h
                  · exact ⟨iT, oT, mx, rfl, rfl, hmx, by omega⟩

/-- A reward outputs total exceeding the ceiling makes the block-reward
check fail with `AttemptToPrintMoney`. -/
theorem check_block_reward_print_money (utxos : TV.UtxoMap) (acct : TV.AccountingView)
    (b : TV.Block) (fees subsidy iT oT mx : Nat)
    (hs : TV.check_stake_outputs_in_reward utxos acct b = .ok ())
    (hin : TV.reward_inputs_total utxos b.blockRewardTransactable = .ok iT)
    (hout : TV.reward_outputs_total b.blockRewardTransactable = .ok oT)
    (hmx : (amountAdd iT subsidy).bind (fun s => amountAdd s fees) = some mx)
    (hgt : mx < oT) :
    TV.check_block_reward utxos acct b fees subsidy =
      .error (.attemptToPrintMoney iT oT) := by
  simp only [TV.check_block_reward, bind, Except.bind, pure, Except.pure, hs, hin,
    hout, hmx]
  rw [if_pos (by omega)]

/-- C1: conservation of value.  For a transaction, the money-printing
check of `connect_transaction` succeeds only when, per asset id, the
outputs total does not exceed the inputs total, and a violated asset
makes it fail with `AttemptToPrintMoney`; the legacy spend cache's
`check_inputs_amounts` enforces the same single-asset bound; and
`check_block_reward` returns `Ok` only when the reward outputs' coin
total is at most reward inputs + block subsidy + total fees, returning
`AttemptToPrintMoney` when the ceiling is exceeded. -/
theorem C1_conservation_of_value :
    (∀ (utxos : TV.UtxoMap) (tx : TV.Transaction) (fee : Nat),
      TV.check_transferred_amounts_and_get_fee utxos tx = .ok fee →
      ∃ im om, TV.calculate_total_inputs utxos tx.inputs = .ok im ∧
        TV.calculate_total_outputs tx.outputs = .ok om ∧
        ∀ k, TV.amountMapGetOrZero om k ≤ TV.amountMapGetOrZero im k) ∧
    (∀ (utxos : TV.UtxoMap) (tx : TV.Transaction) (im om : TV.AmountMap),
      TV.calculate_total_inputs utxos tx.inputs = .ok im →
      TV.calculate_total_outputs tx.outputs = .ok om →
      (∃ k, TV.amountMapGetOrZero im k < TV.amountMapGetOrZero om k) →
      ∃ i o, TV.check_transferred_amounts_and_get_fee utxos tx =
        .error (.attemptToPrintMoney i o) ∧ i < o) ∧
    (∀ (c : SC.InputsCache) (db : SC.Store) (inputs : List SC.TxInput)
        (outputs : List SC.TxOutput),
      (SC.check_inputs_amounts c db inputs outputs = .ok () →
        ∃ it ot, SC.sc_calculate_total_inputs c db inputs = .ok it ∧
          SC.sum_output_values outputs = some ot ∧ ot ≤ it) ∧
      (∀ it ot, SC.sc_calculate_total_inputs c db inputs = .ok it →
        SC.sum_output_values outputs = some ot → it < ot →
        SC.check_inputs_amounts c db inputs outputs =
          .error (.attemptToPrintMoney it ot))) ∧
    (∀ (utxos : TV.UtxoMap) (acct : TV.AccountingView) (b : TV.Block)
        (fees subsidy : Nat),
      (TV.check_block_reward utxos acct b fees subsidy = .ok () →
        ∃ iT oT mx, TV.reward_inputs_total utxos b.blockRewardTransactable = .ok iT ∧
          TV.reward_outputs_total b.blockRewardTransactable = .ok oT ∧
          (amountAdd iT subsidy).bind (fun s => amountAdd s fees) = some mx ∧
          oT ≤ mx) ∧
      (∀ iT oT mx, TV.check_stake_outputs_in_reward utxos acct b = .ok () →
        TV.reward_inputs_total utxos b.blockRewardTransactable = .ok iT →
        TV.reward_outputs_total b.blockRewardTransactable = .ok oT →
        (amountAdd iT subsidy).bind (fun s => amountAdd s fees) = some mx →
        mx < oT →
        TV.check_block_reward utxos acct b fees subsidy =
          .error (.attemptToPrintMoney iT oT))) := by
  refine ⟨?_, ?_, ?_, ?_⟩
  · intro utxos tx fee h
    simp only [TV.check_transferred_amounts_and_get_fee, bind, Except.bind, pure,
      Except.pure] at h
    cases hin : TV.calculate_total_inputs utxos tx.inputs with
    | error e => simp only [hin] at h; exact Except.noConfusion h
    | ok im =>
        simp only [hin] at h
        cases hout : TV.calculate_total_outputs tx.outputs with
        | error e => simp only [hout] at h; exact Except.noConfusion h
        | ok om =>
            simp only [hout] at h
            cases hc : TV.check_transferred_amount im om with
            | error e => simp only [hc] at h; exact Except.noConfusion h
            | ok u =>
                cases u
                exact ⟨im, om, rfl, rfl, check_transferred_amount_ok im om hc⟩
  · intro utxos tx im om hin hout hviol
    obtain ⟨i, o, hc, hio⟩ := check_transferred_amount_violation im om hviol
    refine ⟨i, o, ?_, hio⟩
    simp only [TV.check_transferred_amounts_and_get_fee, bind, Except.bind, pure,
      Except.pure, hin, hout, hc]
  · intro c db inputs outputs
    exact ⟨check_inputs_amounts_ok c db inputs outputs,
      fun it ot hin hout hgt =>
        check_inputs_amounts_print_money c db inputs outputs it ot hin hout hgt⟩
  · intro utxos acct b fees subsidy
    exact ⟨check_block_reward_ok utxos acct b fees subsidy,
      fun iT oT mx hs hin hout hmx hgt =>
        check_block_reward_print_money utxos acct b fees subsidy iT oT mx hs hin hout
          hmx hgt⟩

/-- C1 witness: a transaction spending a 10-coin utxo into a 7-coin
output satisfies the per-asset bound, and a PoW block reward paying 100
coins against subsidy 2 + fees 1 (no reward inputs) is rejected as an
attempt to print money. -/
theorem C1_conservation_of_value_witness :
    (∃ im om,
      TV.calculate_total_inputs
        [(⟨.transaction 1, 0⟩, ⟨.transfer (.coin 10) 0, 0, false⟩)]
        [⟨⟨.transaction 1, 0⟩⟩] = .ok im ∧
      TV.calculate_total_outputs [.transfer (.coin 7) 0] = .ok om ∧
      ∀ k, TV.amountMapGetOrZero om k ≤ TV.amountMapGetOrZero im k) ∧
    TV.check_block_reward [] ⟨[], []⟩ ⟨9, .pow ⟨0, 0, [.transfer (.coin 100) 0]⟩, []⟩
      1 2 = .error (.attemptToPrintMoney 0 100) :=
  ⟨C1_conservation_of_value.1
      [(⟨.transaction 1, 0⟩, ⟨.transfer (.coin 10) 0, 0, false⟩)]
      ⟨2, [⟨⟨.transaction 1, 0⟩⟩], [.transfer (.coin 7) 0]⟩ 3 (by rfl),
   C1_conservation_of_value.2.2.2 [] ⟨[], []⟩
      ⟨9, .pow ⟨0, 0, [.transfer (.coin 100) 0]⟩, []⟩ 1 2 |>.2 0 100 3
      (by rfl) (by rfl) (by rfl) (by rfl) (by norm_num)⟩

/-- Collecting input utxos fails with `MissingOutputOrSpent` as soon as
any input's outpoint is absent from the UTXO view. -/
theorem collect_inputs_utxos_missing (utxos : TV.UtxoMap) (inputs : List SC.TxInput)
    (h : ∃ i ∈ inputs, TV.utxoLookup utxos i.outpoint = none) :
    TV.collect_inputs_utxos utxos inputs = .error .missingOutputOrSpent := by
  induction inputs with
  | nil => obtain ⟨i, hmem, _⟩ := h; exact absurd hmem (List.not_mem_nil i)
  | cons i0 rest ih =>
      rw [TV.collect_inputs_utxos]
      cases h0 : TV.utxoLookup utxos i0.outpoint with
      | none => rfl
      | some u =>
          obtain ⟨i, hmem, hnone⟩ := h
          rcases List.mem_cons.mp hmem with heq | hrest
          · subst heq; rw [h0] at hnone; exact Option.noConfusion hnone
          · rw [ih ⟨i, hrest, hnone⟩]
            rfl

/-- C2: a transaction with an input whose outpoint refers to a
nonexistent or already-spent output in the UTXO view fails to connect
with the `MissingOutputOrSpent` error, and the failed attempt leaves the
UTXO set, the undo store, the transaction index and the accounting state
unchanged. -/
theorem C2_missing_input_no_mutation (env : TV.ConnectEnv) (st : TV.TxVerState)
    (txSource : TV.TransactionSourceForConnect) (tx : TV.SignedTransaction)
    (mtp : Nat)
    (h : ∃ i ∈ tx.transaction.inputs, TV.utxoLookup st.utxoCache i.outpoint = none) :
    (TV.connect_transaction env st txSource tx mtp).2 =
      .error .missingOutputOrSpent ∧
    (TV.connect_transaction env st txSource tx mtp).1.utxoCache = st.utxoCache ∧
    (TV.connect_transaction env st txSource tx mtp).1.utxoBlockUndo =
      st.utxoBlockUndo ∧
    (TV.connect_transaction env st txSource tx mtp).1.txIndexCache =
      st.txIndexCache ∧
    (TV.connect_transaction env st txSource tx mtp).1.accountingPools =
      st.accountingPools ∧
    (TV.connect_transaction env st txSource tx mtp).1.accountingUndo =
      st.accountingUndo := by
  have hcol := collect_inputs_utxos_missing st.utxoCache tx.transaction.inputs h
  have hc : TV.check_tx_inputs_outputs_purposes env tx.transaction st.utxoCache =
      .error .missingOutputOrSpent := by
    simp only [TV.check_tx_inputs_outputs_purposes, bind, Except.bind, hcol]
  have hmain : TV.connect_transaction env st txSource tx mtp =
      (st, .error .missingOutputOrSpent) := by
    simp only [TV.connect_transaction, hc]
  rw [hmain]
  exact ⟨rfl, rfl, rfl, rfl, rfl, rfl⟩

/-- C2 witness: on an empty UTXO view, connecting a transaction with one
input fails with `MissingOutputOrSpent` and every state component is
unchanged. -/
theorem C2_missing_input_no_mutation_witness :
    (TV.connect_transaction
      ⟨fun _ _ => true, fun tc _ => .ok tc, 0, fun _ => 0, fun tc _ _ => .ok tc,
        fun _ _ => true, fun _ _ _ => true, fun _ => 0, fun _ => .ok none⟩
      ⟨[], [], false, [], [], [], []⟩ (.mempool 0)
      ⟨⟨5, [⟨⟨.transaction 1, 0⟩⟩], []⟩, []⟩ 0).2 = .error .missingOutputOrSpent ∧
    (TV.connect_transaction
      ⟨fun _ _ => true, fun tc _ => .ok tc, 0, fun _ => 0, fun tc _ _ => .ok tc,
        fun _ _ => true, fun _ _ _ => true, fun _ => 0, fun _ => .ok none⟩
      ⟨[], [], false, [], [], [], []⟩ (.mempool 0)
      ⟨⟨5, [⟨⟨.transaction 1, 0⟩⟩], []⟩, []⟩ 0).1.utxoCache = [] :=
  ⟨(C2_missing_input_no_mutation
      ⟨fun _ _ => true, fun tc _ => .ok tc, 0, fun _ => 0, fun tc _ _ => .ok tc,
        fun _ _ => true, fun _ _ _ => true, fun _ => 0, fun _ => .ok none⟩
      ⟨[], [], false, [], [], [], []⟩ (.mempool 0)
      ⟨⟨5, [⟨⟨.transaction 1, 0⟩⟩], []⟩, []⟩ 0
      ⟨⟨⟨.transaction 1, 0⟩⟩, by decide, rfl⟩).1,
   (C2_missing_input_no_mutation
      ⟨fun _ _ => true, fun tc _ => .ok tc, 0, fun _ => 0, fun tc _ _ => .ok tc,
        fun _ _ => true, fun _ _ _ => true, fun _ => 0, fun _ => .ok none⟩
      ⟨[], [], false, [], [], [], []⟩ (.mempool 0)
      ⟨⟨5, [⟨⟨.transaction 1, 0⟩⟩], []⟩, []⟩ 0
      ⟨⟨⟨.transaction 1, 0⟩⟩, by decide, rfl⟩).2.1⟩

/-- Inserting into the spend cache preserves every present key. -/
theorem cacheLookup_insert_preserve (c : SC.InputsCache) (k k' : SC.OutPointSourceId)
    (v : SC.CachedInputsOperation) (h : SC.cacheLookup c k ≠ none) :
    SC.cacheLookup (SC.cacheInsert c k' v) k ≠ none := by
  simp only [SC.cacheInsert, SC.cacheLookup]
  by_cases hk : k' = k
  · simp [hk]
  · simp only [if_neg hk]
    exact h

/-- Updating a value in the spend cache preserves every present key. -/
theorem cacheLookup_update_preserve (c : SC.InputsCache) (k k' : SC.OutPointSourceId)
    (v : SC.CachedInputsOperation) (h : SC.cacheLookup c k ≠ none) :
    SC.cacheLookup (SC.cacheUpdate c k' v) k ≠ none := by
  induction c with
  | nil =>
      simp only [SC.cacheUpdate, List.map_nil]
      exact h
  | cons p rest ih =>
      obtain ⟨k0, v0⟩ := p
      simp only [SC.cacheUpdate, List.map_cons] at *
      by_cases h0 : k0 = k'
      · simp only [h0, if_pos rfl]
        by_cases hk : k' = k
        · simp [SC.cacheLookup, hk]
        · simp only [SC.cacheLookup, hk, if_neg hk] at h ⊢
          rw [h0] at h
          simp only [if_neg hk] at h
          exact ih h
      · simp only [if_neg h0]
        by_cases hk : k0 = k
        · simp [SC.cacheLookup, hk]
        · simp only [SC.cacheLookup, if_neg hk] at h ⊢
          exact ih h

/-- `fetch_and_cache` preserves every present key. -/
theorem fetch_and_cache_preserve (c c' : SC.InputsCache) (db : SC.Store)
    (o : SC.OutPoint) (k : SC.OutPointSourceId)
    (hok : SC.fetch_and_cache c db o = .ok c') (h : SC.cacheLookup c k ≠ none) :
    SC.cacheLookup c' k ≠ none := by
  simp only [SC.fetch_and_cache] at hok
  cases hl : SC.cacheLookup c o.sourceId with
  | some op =>
      rw [hl] at hok
      cases hok
      exact h
  | none =>
      rw [hl] at hok
      cases hdb : db.getMainchainTxIndex o.sourceId with
      | error e => rw [hdb] at hok; exact Except.noConfusion hok
      | ok oidx =>
          cases oidx with
          | none => rw [hdb] at hok; exact Except.noConfusion hok
          | some idx =>
              rw [hdb] at hok
              cases hok
              exact cacheLookup_insert_preserve c k o.sourceId (.read idx) h

/-- Precaching inputs preserves every present key. -/
theorem precache_inputs_preserve (inputs : List SC.TxInput) :
    ∀ (c c' : SC.InputsCache) (db : SC.Store) (k : SC.OutPointSourceId),
    SC.precache_inputs c db inputs = .ok c' → SC.cacheLookup c k ≠ none →
    SC.cacheLookup c' k ≠ none := by
  induction inputs with
  | nil =>
      intro c c' db k hok h
      simp only [SC.precache_inputs] at hok
      cases hok
      exact h
  | cons i rest ih =>
      intro c c' db k hok h
      simp only [SC.precache_inputs, bind, Except.bind] at hok
      cases hf : SC.fetch_and_cache c db i.outpoint with
      | error e => rw [hf] at hok; exact Except.noConfusion hok
      | ok c1 =>
          rw [hf] at hok
          exact ih c1 c' db k hok (fetch_and_cache_preserve c c1 db i.outpoint k hf h)

/-- Spending one input preserves every present key. -/
theorem apply_spend_one_preserve (c c' : SC.InputsCache) (db : SC.Store)
    (i : SC.TxInput) (spendHeight maturity : Nat) (sp : SC.Spender)
    (k : SC.OutPointSourceId)
    (hok : SC.apply_spend_one c db i spendHeight maturity sp = .ok c')
    (h : SC.cacheLookup c k ≠ none) : SC.cacheLookup c' k ≠ none := by
  have hshape : ∃ s v, c' = SC.cacheUpdate c s v := by
    simp only [SC.apply_spend_one, bind, Except.bind, pure, Except.pure] at hok
    split at hok
    all_goals
      split at hok
    all_goals
      try (exact Except.noConfusion hok)
    all_goals
      split at hok
    all_goals
      try (exact Except.noConfusion hok)
    all_goals
      try (exact ⟨_, _, (Except.ok.injEq _ _).mp hok.symm⟩)
    all_goals
      split at hok
    all_goals
      try (exact Except.noConfusion hok)
    all_goals
      exact ⟨_, _, (Except.ok.injEq _ _).mp hok.symm⟩
  obtain ⟨s, v, hc⟩ := hshape
  rw [hc]
  exact cacheLookup_update_preserve c k s v h

/-- `apply_spend` preserves every present key. -/
theorem apply_spend_preserve (inputs : List SC.TxInput) :
    ∀ (c c' : SC.InputsCache) (db : SC.Store) (spendHeight maturity : Nat)
      (sp : SC.Spender) (k : SC.OutPointSourceId),
    SC.apply_spend c db inputs spendHeight maturity sp = .ok c' →
    SC.cacheLookup c k ≠ none → SC.cacheLookup c' k ≠ none := by
  induction inputs with
  | nil =>
      intro c c' db sH m sp k hok h
      simp only [SC.apply_spend] at hok
      cases hok
      exact h
  | cons i rest ih =>
      intro c c' db sH m sp k hok h
      simp only [SC.apply_spend, bind, Except.bind] at hok
      cases h1 : SC.apply_spend_one c db i sH m sp with
      | error e => rw [h1] at hok; exact Except.noConfusion hok
      | ok c1 =>
          rw [h1] at hok
          exact ih c1 c' db sH m sp k hok
            (apply_spend_one_preserve c c1 db i sH m sp k h1 h)

/-- Splitting a successful `Except` bind into its two successful
stages. -/
theorem except_bind_ok {ε α β : Type} (x : Except ε α) (f : α → Except ε β) (r : β)
    (h : x >>= f = .ok r) : ∃ a, x = .ok a ∧ f a = .ok r := by
  cases x with
  | error e => exact Except.noConfusion h
  | ok a => exact ⟨a, rfl, h⟩

/-- `add_outputs` for a transaction with a nonzero output count whose id
already has a cached entry fails with
`OutputAlreadyPresentInInputsCache`. -/
theorem add_outputs_tx_occupied (c : SC.InputsCache) (b : SC.Block) (n : Nat)
    (tx : SC.Transaction) (op : SC.CachedInputsOperation)
    (hget : b.txs.get? n = some tx) (hlen : tx.outputs.length ≠ 0)
    (hl : SC.cacheLookup c (.transaction tx.txid) = some op) :
    SC.add_outputs c b (.transactionKind n) =
      .error .outputAlreadyPresentInInputsCache := by
  simp only [SC.add_outputs, SC.calculate_tx_index_from_block, SC.TxMainChainIndex.make,
    bind, Except.bind, pure, Except.pure, hget, if_neg hlen, hl]

/-- `add_outputs` for a block reward with destinations whose source id
already has a cached entry fails with
`OutputAlreadyPresentInInputsCache`. -/
theorem add_outputs_reward_occupied (c : SC.InputsCache) (b : SC.Block)
    (outs : List SC.TxOutput) (op : SC.CachedInputsOperation)
    (hdest : b.rewardDestinations = some outs) (hlen : outs.length ≠ 0)
    (hl : SC.cacheLookup c (.blockReward b.blockId) = some op) :
    SC.add_outputs c b .blockRewardKind =
      .error .outputAlreadyPresentInInputsCache := by
  simp only [SC.add_outputs, SC.TxMainChainIndex.make, bind, Except.bind, pure,
    Except.pure, hdest, if_neg hlen, hl]

/-- `add_outputs` for a transaction whose id already has a cached entry
never succeeds. -/
theorem add_outputs_tx_key_present (c : SC.InputsCache) (b : SC.Block) (n : Nat)
    (tx : SC.Transaction) (r : SC.InputsCache)
    (hget : b.txs.get? n = some tx)
    (hkey : SC.cacheLookup c (.transaction tx.txid) ≠ none)
    (hok : SC.add_outputs c b (.transactionKind n) = .ok r) : False := by
  simp only [SC.add_outputs, SC.calculate_tx_index_from_block, SC.TxMainChainIndex.make,
    bind, Except.bind, pure, Except.pure, hget] at hok
  by_cases hlen : tx.outputs.length = 0
  · rw [if_pos hlen] at hok
    exact Except.noConfusion hok
  · rw [if_neg hlen] at hok
    cases hl : SC.cacheLookup c (.transaction tx.txid) with
    | none => exact hkey hl
    | some op =>
        rw [hl] at hok
        exact Except.noConfusion hok

/-- A successful `add_outputs` for a transaction leaves the
transaction's id cached. -/
theorem add_outputs_tx_ok_key (c : SC.InputsCache) (b : SC.Block) (n : Nat)
    (tx : SC.Transaction) (c' : SC.InputsCache)
    (hget : b.txs.get? n = some tx)
    (hok : SC.add_outputs c b (.transactionKind n) = .ok c') :
    SC.cacheLookup c' (.transaction tx.txid) ≠ none := by
  simp only [SC.add_outputs, SC.calculate_tx_index_from_block, SC.TxMainChainIndex.make,
    bind, Except.bind, pure, Except.pure, hget] at hok
  by_cases hlen : tx.outputs.length = 0
  · rw [if_pos hlen] at hok
    exact Except.noConfusion hok
  · rw [if_neg hlen] at hok
    cases hl : SC.cacheLookup c (.transaction tx.txid) with
    | some op => rw [hl] at hok; exact Except.noConfusion hok
    | none =>
        rw [hl] at hok
        cases hok
        simp [SC.cacheInsert, SC.cacheLookup]

/-- A successful `spend` of a transaction leaves the transaction's id
cached. -/
theorem spend_tx_ok_key (c c' : SC.InputsCache) (db : SC.Store) (env : SC.SigEnv)
    (b : SC.Block) (n : Nat) (tx : SC.Transaction) (spendHeight maturity : Nat)
    (hget : b.txs.get? n = some tx)
    (hok : SC.spend c db env b (.transactionKind n) spendHeight maturity = .ok c') :
    SC.cacheLookup c' (.transaction tx.txid) ≠ none := by
  simp only [SC.spend, hget, pure_bind] at hok
  obtain ⟨c1, hpre, hok1⟩ := except_bind_ok _ _ _ hok
  obtain ⟨u1, hchk, hok2⟩ := except_bind_ok _ _ _ hok1
  obtain ⟨u2, hver, hok3⟩ := except_bind_ok _ _ _ hok2
  obtain ⟨c2, happ, hadd⟩ := except_bind_ok _ _ _ hok3
  exact add_outputs_tx_ok_key c2 b n tx c' hget hadd

/-- C10: within one spend cache each outpoint-source id is cached at
most once — adding the outputs of a transaction (with a nonzero output
count) or of a block reward whose source id already has a cached entry
fails with `OutputAlreadyPresentInInputsCache`, and therefore spending
two transactions with the same transaction id through the same cache
always fails on the second one. -/
theorem C10_duplicate_source_rejected :
    (∀ (c : SC.InputsCache) (b : SC.Block) (n : Nat) (tx : SC.Transaction)
        (op : SC.CachedInputsOperation),
      b.txs.get? n = some tx → tx.outputs.length ≠ 0 →
      SC.cacheLookup c (.transaction tx.txid) = some op →
      SC.add_outputs c b (.transactionKind n) =
        .error .outputAlreadyPresentInInputsCache) ∧
    (∀ (c : SC.InputsCache) (b : SC.Block) (outs : List SC.TxOutput)
        (op : SC.CachedInputsOperation),
      b.rewardDestinations = some outs → outs.length ≠ 0 →
      SC.cacheLookup c (.blockReward b.blockId) = some op →
      SC.add_outputs c b .blockRewardKind =
        .error .outputAlreadyPresentInInputsCache) ∧
    (∀ (c c' : SC.InputsCache) (db db2 : SC.Store) (env env2 : SC.SigEnv)
        (b b2 : SC.Block) (n n2 : Nat) (tx tx2 : SC.Transaction)
        (h1 m1 h2 m2 : Nat),
      b.txs.get? n = some tx → b2.txs.get? n2 = some tx2 → tx2.txid = tx.txid →
      SC.spend c db env b (.transactionKind n) h1 m1 = .ok c' →
      (SC.spend c' db2 env2 b2 (.transactionKind n2) h2 m2).isOk = false) := by
  refine ⟨add_outputs_tx_occupied, add_outputs_reward_occupied, ?_⟩
  intro c c' db db2 env env2 b b2 n n2 tx tx2 h1 m1 h2 m2 hget hget2 htx hok1
  cases hres : SC.spend c' db2 env2 b2 (.transactionKind n2) h2 m2 with
  | error e => rfl
  | ok r =>
      exfalso
      have hkey : SC.cacheLookup c' (.transaction tx2.txid) ≠ none := by
        rw [htx]
        exact spend_tx_ok_key c c' db env b n tx h1 m1 hget hok1
      simp only [SC.spend, hget2, pure_bind] at hres
      obtain ⟨c1, hpre, hr1⟩ := except_bind_ok _ _ _ hres
      obtain ⟨u1, hchk, hr2⟩ := except_bind_ok _ _ _ hr1
      obtain ⟨u2, hver, hr3⟩ := except_bind_ok _ _ _ hr2
      obtain ⟨c2, happ, hadd⟩ := except_bind_ok _ _ _ hr3
      have hkey1 := precache_inputs_preserve tx2.inputs c' c1 db2
        (.transaction tx2.txid) hpre hkey
      have hkey2 := apply_spend_preserve tx2.inputs c1 c2 db2 h2 m2
        (.transaction tx2.txid) (.transaction tx2.txid) happ hkey1
      exact add_outputs_tx_key_present c2 b2 n2 tx2 r hget2 hkey2 hadd

/-- C10 witness: spending the one-transaction block containing
transaction 7 succeeds on a fresh cache, and spending the same
transaction again through the resulting cache fails. -/
theorem C10_duplicate_source_rejected_witness :
    SC.spend [] ⟨fun _ => .ok none, fun _ => .ok none, fun _ => .ok none⟩
      ⟨fun _ _ _ => true⟩ ⟨3, [⟨7, [], [⟨0, 0⟩]⟩], none, none⟩
      (.transactionKind 0) 1 0 =
      .ok [(.transaction 7, .write ⟨.transactionPos ⟨3, 0⟩, [.unspent]⟩)] ∧
    (SC.spend [(.transaction 7, .write ⟨.transactionPos ⟨3, 0⟩, [.unspent]⟩)]
      ⟨fun _ => .ok none, fun _ => .ok none, fun _ => .ok none⟩
      ⟨fun _ _ _ => true⟩ ⟨3, [⟨7, [], [⟨0, 0⟩]⟩], none, none⟩
      (.transactionKind 0) 1 0).isOk = false :=
  ⟨by rfl,
   C10_duplicate_source_rejected.2.2
     [] [(.transaction 7, .write ⟨.transactionPos ⟨3, 0⟩, [.unspent]⟩)]
     ⟨fun _ => .ok none, fun _ => .ok none, fun _ => .ok none⟩
     ⟨fun _ => .ok none, fun _ => .ok none, fun _ => .ok none⟩
     ⟨fun _ _ _ => true⟩ ⟨fun _ _ _ => true⟩
     ⟨3, [⟨7, [], [⟨0, 0⟩]⟩], none, none⟩ ⟨3, [⟨7, [], [⟨0, 0⟩]⟩], none, none⟩
     0 0 ⟨7, [], [⟨0, 0⟩]⟩ ⟨7, [], [⟨0, 0⟩]⟩ 1 0 1 0 rfl rfl rfl (by rfl)⟩
